import Mathlib

/-!
Verification development for the decaf377 prime-order group library.

The library is shallowly embedded: the two wrapper fields are modelled as
`ZMod` over their concrete moduli, the square-root-of-ratio primitive and the
Decaf encoding/decoding routines are translated from the Rust source, and the
R1CS gadgets are modelled denotationally (witness values plus the constraint
propositions the gadgets enforce).  Pieces of the repository that are not part
of the provided sources (the fiat-crypto generated field cores, the
`FqVarExtension` gadget helpers, and the out-of-circuit `vartime_decompress`)
are modelled from the specification; each such definition carries a doc
comment starting with `Modelled from the spec:`.
-/

set_option maxRecDepth 40000
set_option maxHeartbeats 1000000

namespace Decaf377

/-! ### Executable modular exponentiation

Used to discharge concrete exponentiation facts (Fermat/Euler checks and the
Lucas primality certificates for the field moduli) by kernel computation. -/

/-- Fuel-driven fast modular exponentiation on naturals.  When the fuel runs
out it falls back to the mathematical definition, so the function is equal to
`a ^ e % n` for every fuel value. -/
def powMod : ℕ → ℕ → ℕ → ℕ → ℕ
  | 0, a, e, n => a ^ e % n
  | fuel+1, a, e, n =>
    if e = 0 then 1 % n
    else if e % 2 = 1 then powMod fuel (a * a % n) (e / 2) n * a % n
    else powMod fuel (a * a % n) (e / 2) n

theorem powMod_eq : ∀ (fuel a e n : ℕ), powMod fuel a e n = a ^ e % n := by
  intro fuel
  induction fuel with
  | zero => intro a e n; rfl
  | succ f ih =>
    intro a e n
    by_cases he : e = 0
    · subst he; simp [powMod]
    · have hsplit : e = 2 * (e / 2) + e % 2 := (Nat.div_add_mod e 2).symm
      have hpow : (a * a % n) ^ (e / 2) % n = (a * a) ^ (e / 2) % n := by
        rw [Nat.pow_mod, Nat.mod_mod_of_dvd _ dvd_rfl, ← Nat.pow_mod]
      by_cases hodd : e % 2 = 1
      · have : a ^ e = (a * a) ^ (e / 2) * a := by
          conv in a ^ e => rw [hsplit]
          rw [pow_add, pow_mul, hodd, pow_one, sq]
        rw [powMod, if_neg he, if_pos hodd, ih, hpow, this, Nat.mul_mod,
          Nat.mod_mod_of_dvd _ dvd_rfl, ← Nat.mul_mod]
      · have heven : e % 2 = 0 := by omega
        have : a ^ e = (a * a) ^ (e / 2) := by
          conv in a ^ e => rw [hsplit]
          rw [pow_add, pow_mul, heven, pow_zero, mul_one, sq]
        rw [powMod, if_neg he, if_neg hodd, ih, hpow, this]

/-- Bridging lemma: a `powMod` computation determines the corresponding
power in `ZMod n`. -/
theorem zmod_pow_of_powMod {n : ℕ} (F a e v : ℕ) (h : powMod F a e n = v) :
    (a : ZMod n) ^ e = ((v : ℕ) : ZMod n) := by
  rw [← h, powMod_eq, ZMod.natCast_mod, Nat.cast_pow]

/-- Casting a natural `v` with `1 < p`, `v < p`, `v ≠ 1` into `ZMod p` cannot
give `1`. -/
theorem zmod_natCast_ne_one {p v : ℕ} (h1 : 1 < p) (hv : v < p) (hne : v ≠ 1) :
    ((v : ℕ) : ZMod p) ≠ 1 := by
  haveI : NeZero p := ⟨by omega⟩
  haveI : Fact (1 < p) := ⟨h1⟩
  intro h
  have hval := congrArg ZMod.val h
  rw [ZMod.val_cast_of_lt hv, ZMod.val_one] at hval
  exact hne hval

/-! ### Lucas primality certificates -/

theorem prime_dvd_list_prod {q : ℕ} (hq : Nat.Prime q) :
    ∀ l : List ℕ, q ∣ l.prod → ∃ x ∈ l, q ∣ x := by
  intro l
  induction l with
  | nil =>
    intro h
    simp only [List.prod_nil] at h
    exact absurd (Nat.dvd_one.mp h) (Nat.Prime.ne_one hq)
  | cons x xs ih =>
    intro h
    rw [List.prod_cons] at h
    rcases (Nat.Prime.dvd_mul hq).mp h with h | h
    · exact ⟨x, List.mem_cons_self x xs, h⟩
    · obtain ⟨y, hy, hdy⟩ := ih h
      exact ⟨y, List.mem_cons_of_mem x hy, hdy⟩

/-- Lucas primality certificate: `p` is prime given a witness `a` of order
`p - 1` in `ZMod p`, where `qs` lists the distinct prime factors of `p - 1`
with multiplicities. -/
theorem lucas_cert (p a : ℕ) (qs : List (ℕ × ℕ))
    (hprod : p - 1 = (qs.map fun pe => pe.1 ^ pe.2).prod)
    (hqs : ∀ pe ∈ qs, Nat.Prime pe.1)
    (ha1 : (a : ZMod p) ^ (p - 1) = 1)
    (hand : ∀ pe ∈ qs, (a : ZMod p) ^ ((p - 1) / pe.1) ≠ 1) : Nat.Prime p := by
  apply lucas_primality p (a : ZMod p) ha1
  intro q hq hdvd
  rw [hprod] at hdvd
  obtain ⟨x, hx, hdx⟩ := prime_dvd_list_prod hq _ hdvd
  obtain ⟨pe, hpe, rfl⟩ := List.mem_map.mp hx
  have hqpe : q ∣ pe.1 := Nat.Prime.dvd_of_dvd_pow hq hdx
  have : q = pe.1 := (Nat.prime_dvd_prime_iff_eq hq (hqs pe hpe)).mp hqpe
  rw [this]
  exact hand pe hpe

theorem prime_38740043 : Nat.Prime 38740043 := by
  apply lucas_cert 38740043 5 [(2,1),(11,1),(17,1),(103583,1)]
  · decide
  · intro pe hpe
    simp only [List.mem_cons, List.not_mem_nil, or_false] at hpe
    rcases hpe with rfl | rfl | rfl | rfl
    · norm_num
    · norm_num
    · norm_num
    · norm_num
  · rw [zmod_pow_of_powMod 34 5 (38740043 - 1) 1 (by decide)]
    exact Nat.cast_one
  · intro pe hpe
    simp only [List.mem_cons, List.not_mem_nil, or_false] at hpe
    rcases hpe with rfl | rfl | rfl | rfl
    · rw [zmod_pow_of_powMod 34 5 ((38740043 - 1) / 2) 38740042 (by decide)]
      exact zmod_natCast_ne_one (by decide) (by decide) (by decide)
    · rw [zmod_pow_of_powMod 34 5 ((38740043 - 1) / 11) 21507995 (by decide)]
      exact zmod_natCast_ne_one (by decide) (by decide) (by decide)
    · rw [zmod_pow_of_powMod 34 5 ((38740043 - 1) / 17) 30541140 (by decide)]
      exact zmod_natCast_ne_one (by decide) (by decide) (by decide)
    · rw [zmod_pow_of_powMod 34 5 ((38740043 - 1) / 103583) 13090180 (by decide)]
      exact zmod_natCast_ne_one (by decide) (by decide) (by decide)

theorem prime_516860609 : Nat.Prime 516860609 := by
  apply lucas_cert 516860609 3 [(2,6),(11,1),(734177,1)]
  · decide
  · intro pe hpe
    simp only [List.mem_cons, List.not_mem_nil, or_false] at hpe
    rcases hpe with rfl | rfl | rfl
    · norm_num
    · norm_num
    · norm_num
  · rw [zmod_pow_of_powMod 37 3 (516860609 - 1) 1 (by decide)]
    exact Nat.cast_one
  · intro pe hpe
    simp only [List.mem_cons, List.not_mem_nil, or_false] at hpe
    rcases hpe with rfl | rfl | rfl
    · rw [zmod_pow_of_powMod 37 3 ((516860609 - 1) / 2) 516860608 (by decide)]
      exact zmod_natCast_ne_one (by decide) (by decide) (by decide)
    · rw [zmod_pow_of_powMod 37 3 ((516860609 - 1) / 11) 255058541 (by decide)]
      exact zmod_natCast_ne_one (by decide) (by decide) (by decide)
    · rw [zmod_pow_of_powMod 37 3 ((516860609 - 1) / 734177) 241932022 (by decide)]
      exact zmod_natCast_ne_one (by decide) (by decide) (by decide)

theorem prime_1282495723 : Nat.Prime 1282495723 := by
  apply lucas_cert 1282495723 5 [(2,1),(3,1),(229,1),(933403,1)]
  · decide
  · intro pe hpe
    simp only [List.mem_cons, List.not_mem_nil, or_false] at hpe
    rcases hpe with rfl | rfl | rfl | rfl
    · norm_num
    · norm_num
    · norm_num
    · norm_num
  · rw [zmod_pow_of_powMod 39 5 (1282495723 - 1) 1 (by decide)]
    exact Nat.cast_one
  · intro pe hpe
    simp only [List.mem_cons, List.not_mem_nil, or_false] at hpe
    rcases hpe with rfl | rfl | rfl | rfl
    · rw [zmod_pow_of_powMod 39 5 ((1282495723 - 1) / 2) 1282495722 (by decide)]
      exact zmod_natCast_ne_one (by decide) (by decide) (by decide)
    · rw [zmod_pow_of_powMod 39 5 ((1282495723 - 1) / 3) 711946248 (by decide)]
      exact zmod_natCast_ne_one (by decide) (by decide) (by decide)
    · rw [zmod_pow_of_powMod 39 5 ((1282495723 - 1) / 229) 296961586 (by decide)]
      exact zmod_natCast_ne_one (by decide) (by decide) (by decide)
    · rw [zmod_pow_of_powMod 39 5 ((1282495723 - 1) / 933403) 107416310 (by decide)]
      exact zmod_natCast_ne_one (by decide) (by decide) (by decide)

theorem prime_1832756501 : Nat.Prime 1832756501 := by
  apply lucas_cert 1832756501 2 [(2,2),(5,3),(29,1),(126397,1)]
  · decide
  · intro pe hpe
    simp only [List.mem_cons, List.not_mem_nil, or_false] at hpe
    rcases hpe with rfl | rfl | rfl | rfl
    · norm_num
    · norm_num
    · norm_num
    · norm_num
  · rw [zmod_pow_of_powMod 39 2 (1832756501 - 1) 1 (by decide)]
    exact Nat.cast_one
  · intro pe hpe
    simp only [List.mem_cons, List.not_mem_nil, or_false] at hpe
    rcases hpe with rfl | rfl | rfl | rfl
    · rw [zmod_pow_of_powMod 39 2 ((1832756501 - 1) / 2) 1832756500 (by decide)]
      exact zmod_natCast_ne_one (by decide) (by decide) (by decide)
    · rw [zmod_pow_of_powMod 39 2 ((1832756501 - 1) / 5) 1191984400 (by decide)]
      exact zmod_natCast_ne_one (by decide) (by decide) (by decide)
    · rw [zmod_pow_of_powMod 39 2 ((1832756501 - 1) / 29) 1820063181 (by decide)]
      exact zmod_natCast_ne_one (by decide) (by decide) (by decide)
    · rw [zmod_pow_of_powMod 39 2 ((1832756501 - 1) / 126397) 1556140405 (by decide)]
      exact zmod_natCast_ne_one (by decide) (by decide) (by decide)

theorem prime_15505818271 : Nat.Prime 15505818271 := by
  apply lucas_cert 15505818271 6 [(2,1),(3,1),(5,1),(516860609,1)]
  · decide
  · intro pe hpe
    simp only [List.mem_cons, List.not_mem_nil, or_false] at hpe
    rcases hpe with rfl | rfl | rfl | rfl
    · norm_num
    · norm_num
    · norm_num
    · exact prime_516860609
  · rw [zmod_pow_of_powMod 42 6 (15505818271 - 1) 1 (by decide)]
    exact Nat.cast_one
  · intro pe hpe
    simp only [List.mem_cons, List.not_mem_nil, or_false] at hpe
    rcases hpe with rfl | rfl | rfl | rfl
    · rw [zmod_pow_of_powMod 42 6 ((15505818271 - 1) / 2) 15505818270 (by decide)]
      exact zmod_natCast_ne_one (by decide) (by decide) (by decide)
    · rw [zmod_pow_of_powMod 42 6 ((15505818271 - 1) / 3) 1837395010 (by decide)]
      exact zmod_natCast_ne_one (by decide) (by decide) (by decide)
    · rw [zmod_pow_of_powMod 42 6 ((15505818271 - 1) / 5) 12028367442 (by decide)]
      exact zmod_natCast_ne_one (by decide) (by decide) (by decide)
    · rw [zmod_pow_of_powMod 42 6 ((15505818271 - 1) / 516860609) 9932199674 (by decide)]
      exact zmod_natCast_ne_one (by decide) (by decide) (by decide)

theorem prime_188799526603 : Nat.Prime 188799526603 := by
  apply lucas_cert 188799526603 3 [(2,1),(3,2),(17,1),(71,1),(1187,1),(7321,1)]
  · decide
  · intro pe hpe
    simp only [List.mem_cons, List.not_mem_nil, or_false] at hpe
    rcases hpe with rfl | rfl | rfl | rfl | rfl | rfl
    · norm_num
    · norm_num
    · norm_num
    · norm_num
    · norm_num
    · norm_num
  · rw [zmod_pow_of_powMod 46 3 (188799526603 - 1) 1 (by decide)]
    exact Nat.cast_one
  · intro pe hpe
    simp only [List.mem_cons, List.not_mem_nil, or_false] at hpe
    rcases hpe with rfl | rfl | rfl | rfl | rfl | rfl
    · rw [zmod_pow_of_powMod 46 3 ((188799526603 - 1) / 2) 188799526602 (by decide)]
      exact zmod_natCast_ne_one (by decide) (by decide) (by decide)
    · rw [zmod_pow_of_powMod 46 3 ((188799526603 - 1) / 3) 88158714145 (by decide)]
      exact zmod_natCast_ne_one (by decide) (by decide) (by decide)
    · rw [zmod_pow_of_powMod 46 3 ((188799526603 - 1) / 17) 60045314091 (by decide)]
      exact zmod_natCast_ne_one (by decide) (by decide) (by decide)
    · rw [zmod_pow_of_powMod 46 3 ((188799526603 - 1) / 71) 51780156884 (by decide)]
      exact zmod_natCast_ne_one (by decide) (by decide) (by decide)
    · rw [zmod_pow_of_powMod 46 3 ((188799526603 - 1) / 1187) 6542707704 (by decide)]
      exact zmod_natCast_ne_one (by decide) (by decide) (by decide)
    · rw [zmod_pow_of_powMod 46 3 ((188799526603 - 1) / 7321) 10547753340 (by decide)]
      exact zmod_natCast_ne_one (by decide) (by decide) (by decide)

theorem prime_4153589585267 : Nat.Prime 4153589585267 := by
  apply lucas_cert 4153589585267 2 [(2,1),(11,1),(188799526603,1)]
  · decide
  · intro pe hpe
    simp only [List.mem_cons, List.not_mem_nil, or_false] at hpe
    rcases hpe with rfl | rfl | rfl
    · norm_num
    · norm_num
    · exact prime_188799526603
  · rw [zmod_pow_of_powMod 50 2 (4153589585267 - 1) 1 (by decide)]
    exact Nat.cast_one
  · intro pe hpe
    simp only [List.mem_cons, List.not_mem_nil, or_false] at hpe
    rcases hpe with rfl | rfl | rfl
    · rw [zmod_pow_of_powMod 50 2 ((4153589585267 - 1) / 2) 4153589585266 (by decide)]
      exact zmod_natCast_ne_one (by decide) (by decide) (by decide)
    · rw [zmod_pow_of_powMod 50 2 ((4153589585267 - 1) / 11) 2119076789691 (by decide)]
      exact zmod_natCast_ne_one (by decide) (by decide) (by decide)
    · rw [zmod_pow_of_powMod 50 2 ((4153589585267 - 1) / 188799526603) 4194304 (by decide)]
      exact zmod_natCast_ne_one (by decide) (by decide) (by decide)

theorem prime_49484425527001 : Nat.Prime 49484425527001 := by
  apply lucas_cert 49484425527001 14 [(2,3),(3,3),(5,3),(1832756501,1)]
  · decide
  · intro pe hpe
    simp only [List.mem_cons, List.not_mem_nil, or_false] at hpe
    rcases hpe with rfl | rfl | rfl | rfl
    · norm_num
    · norm_num
    · norm_num
    · exact prime_1832756501
  · rw [zmod_pow_of_powMod 54 14 (49484425527001 - 1) 1 (by decide)]
    exact Nat.cast_one
  · intro pe hpe
    simp only [List.mem_cons, List.not_mem_nil, or_false] at hpe
    rcases hpe with rfl | rfl | rfl | rfl
    · rw [zmod_pow_of_powMod 54 14 ((49484425527001 - 1) / 2) 49484425527000 (by decide)]
      exact zmod_natCast_ne_one (by decide) (by decide) (by decide)
    · rw [zmod_pow_of_powMod 54 14 ((49484425527001 - 1) / 3) 10699524349641 (by decide)]
      exact zmod_natCast_ne_one (by decide) (by decide) (by decide)
    · rw [zmod_pow_of_powMod 54 14 ((49484425527001 - 1) / 5) 4327815218544 (by decide)]
      exact zmod_natCast_ne_one (by decide) (by decide) (by decide)
    · rw [zmod_pow_of_powMod 54 14 ((49484425527001 - 1) / 1832756501) 10999553765820 (by decide)]
      exact zmod_natCast_ne_one (by decide) (by decide) (by decide)

theorem prime_212367687039617 : Nat.Prime 212367687039617 := by
  apply lucas_cert 212367687039617 3 [(2,7),(107,1),(15505818271,1)]
  · decide
  · intro pe hpe
    simp only [List.mem_cons, List.not_mem_nil, or_false] at hpe
    rcases hpe with rfl | rfl | rfl
    · norm_num
    · norm_num
    · exact prime_15505818271
  · rw [zmod_pow_of_powMod 56 3 (212367687039617 - 1) 1 (by decide)]
    exact Nat.cast_one
  · intro pe hpe
    simp only [List.mem_cons, List.not_mem_nil, or_false] at hpe
    rcases hpe with rfl | rfl | rfl
    · rw [zmod_pow_of_powMod 56 3 ((212367687039617 - 1) / 2) 212367687039616 (by decide)]
      exact zmod_natCast_ne_one (by decide) (by decide) (by decide)
    · rw [zmod_pow_of_powMod 56 3 ((212367687039617 - 1) / 107) 195052122941121 (by decide)]
      exact zmod_natCast_ne_one (by decide) (by decide) (by decide)
    · rw [zmod_pow_of_powMod 56 3 ((212367687039617 - 1) / 15505818271) 121313399618752 (by decide)]
      exact zmod_natCast_ne_one (by decide) (by decide) (by decide)

theorem prime_11892231440692483 : Nat.Prime 11892231440692483 := by
  apply lucas_cert 11892231440692483 3 [(2,1),(3,1),(11,1),(71,1),(109,1),(601,1),(38740043,1)]
  · decide
  · intro pe hpe
    simp only [List.mem_cons, List.not_mem_nil, or_false] at hpe
    rcases hpe with rfl | rfl | rfl | rfl | rfl | rfl | rfl
    · norm_num
    · norm_num
    · norm_num
    · norm_num
    · norm_num
    · norm_num
    · exact prime_38740043
  · rw [zmod_pow_of_powMod 62 3 (11892231440692483 - 1) 1 (by decide)]
    exact Nat.cast_one
  · intro pe hpe
    simp only [List.mem_cons, List.not_mem_nil, or_false] at hpe
    rcases hpe with rfl | rfl | rfl | rfl | rfl | rfl | rfl
    · rw [zmod_pow_of_powMod 62 3 ((11892231440692483 - 1) / 2) 11892231440692482 (by decide)]
      exact zmod_natCast_ne_one (by decide) (by decide) (by decide)
    · rw [zmod_pow_of_powMod 62 3 ((11892231440692483 - 1) / 3) 901948487037867 (by decide)]
      exact zmod_natCast_ne_one (by decide) (by decide) (by decide)
    · rw [zmod_pow_of_powMod 62 3 ((11892231440692483 - 1) / 11) 1547971976664657 (by decide)]
      exact zmod_natCast_ne_one (by decide) (by decide) (by decide)
    · rw [zmod_pow_of_powMod 62 3 ((11892231440692483 - 1) / 71) 2145765467135233 (by decide)]
      exact zmod_natCast_ne_one (by decide) (by decide) (by decide)
    · rw [zmod_pow_of_powMod 62 3 ((11892231440692483 - 1) / 109) 4932438480456433 (by decide)]
      exact zmod_natCast_ne_one (by decide) (by decide) (by decide)
    · rw [zmod_pow_of_powMod 62 3 ((11892231440692483 - 1) / 601) 4293822145314593 (by decide)]
      exact zmod_natCast_ne_one (by decide) (by decide) (by decide)
    · rw [zmod_pow_of_powMod 62 3 ((11892231440692483 - 1) / 38740043) 2565194747207174 (by decide)]
      exact zmod_natCast_ne_one (by decide) (by decide) (by decide)

theorem prime_958612291309063373 : Nat.Prime 958612291309063373 := by
  apply lucas_cert 958612291309063373 2 [(2,2),(29,1),(167,1),(49484425527001,1)]
  · decide
  · intro pe hpe
    simp only [List.mem_cons, List.not_mem_nil, or_false] at hpe
    rcases hpe with rfl | rfl | rfl | rfl
    · norm_num
    · norm_num
    · norm_num
    · exact prime_49484425527001
  · rw [zmod_pow_of_powMod 68 2 (958612291309063373 - 1) 1 (by decide)]
    exact Nat.cast_one
  · intro pe hpe
    simp only [List.mem_cons, List.not_mem_nil, or_false] at hpe
    rcases hpe with rfl | rfl | rfl | rfl
    · rw [zmod_pow_of_powMod 68 2 ((958612291309063373 - 1) / 2) 958612291309063372 (by decide)]
      exact zmod_natCast_ne_one (by decide) (by decide) (by decide)
    · rw [zmod_pow_of_powMod 68 2 ((958612291309063373 - 1) / 29) 531933741616069074 (by decide)]
      exact zmod_natCast_ne_one (by decide) (by decide) (by decide)
    · rw [zmod_pow_of_powMod 68 2 ((958612291309063373 - 1) / 167) 922777678099961942 (by decide)]
      exact zmod_natCast_ne_one (by decide) (by decide) (by decide)
    · rw [zmod_pow_of_powMod 68 2 ((958612291309063373 - 1) / 49484425527001) 608624227423958585 (by decide)]
      exact zmod_natCast_ne_one (by decide) (by decide) (by decide)

theorem prime_9586122913090633729 : Nat.Prime 9586122913090633729 := by
  apply lucas_cert 9586122913090633729 11 [(2,46),(3,1),(7,1),(13,1),(499,1)]
  · decide
  · intro pe hpe
    simp only [List.mem_cons, List.not_mem_nil, or_false] at hpe
    rcases hpe with rfl | rfl | rfl | rfl | rfl
    · norm_num
    · norm_num
    · norm_num
    · norm_num
    · norm_num
  · rw [zmod_pow_of_powMod 72 11 (9586122913090633729 - 1) 1 (by decide)]
    exact Nat.cast_one
  · intro pe hpe
    simp only [List.mem_cons, List.not_mem_nil, or_false] at hpe
    rcases hpe with rfl | rfl | rfl | rfl | rfl
    · rw [zmod_pow_of_powMod 72 11 ((9586122913090633729 - 1) / 2) 9586122913090633728 (by decide)]
      exact zmod_natCast_ne_one (by decide) (by decide) (by decide)
    · rw [zmod_pow_of_powMod 72 11 ((9586122913090633729 - 1) / 3) 1269241153724885276 (by decide)]
      exact zmod_natCast_ne_one (by decide) (by decide) (by decide)
    · rw [zmod_pow_of_powMod 72 11 ((9586122913090633729 - 1) / 7) 2506853366896642234 (by decide)]
      exact zmod_natCast_ne_one (by decide) (by decide) (by decide)
    · rw [zmod_pow_of_powMod 72 11 ((9586122913090633729 - 1) / 13) 5076042167606096913 (by decide)]
      exact zmod_natCast_ne_one (by decide) (by decide) (by decide)
    · rw [zmod_pow_of_powMod 72 11 ((9586122913090633729 - 1) / 499) 1821091342295822887 (by decide)]
      exact zmod_natCast_ne_one (by decide) (by decide) (by decide)

theorem prime_227853185823450011796547 : Nat.Prime 227853185823450011796547 := by
  apply lucas_cert 227853185823450011796547 3 [(2,1),(3,1),(12511,1),(14293,1),(212367687039617,1)]
  · decide
  · intro pe hpe
    simp only [List.mem_cons, List.not_mem_nil, or_false] at hpe
    rcases hpe with rfl | rfl | rfl | rfl | rfl
    · norm_num
    · norm_num
    · norm_num
    · norm_num
    · exact prime_212367687039617
  · rw [zmod_pow_of_powMod 86 3 (227853185823450011796547 - 1) 1 (by decide)]
    exact Nat.cast_one
  · intro pe hpe
    simp only [List.mem_cons, List.not_mem_nil, or_false] at hpe
    rcases hpe with rfl | rfl | rfl | rfl | rfl
    · rw [zmod_pow_of_powMod 86 3 ((227853185823450011796547 - 1) / 2) 227853185823450011796546 (by decide)]
      exact zmod_natCast_ne_one (by decide) (by decide) (by decide)
    · rw [zmod_pow_of_powMod 86 3 ((227853185823450011796547 - 1) / 3) 166843157410624619113243 (by decide)]
      exact zmod_natCast_ne_one (by decide) (by decide) (by decide)
    · rw [zmod_pow_of_powMod 86 3 ((227853185823450011796547 - 1) / 12511) 4909212817859807575096 (by decide)]
      exact zmod_natCast_ne_one (by decide) (by decide) (by decide)
    · rw [zmod_pow_of_powMod 86 3 ((227853185823450011796547 - 1) / 14293) 78314464217725646752588 (by decide)]
      exact zmod_natCast_ne_one (by decide) (by decide) (by decide)
    · rw [zmod_pow_of_powMod 86 3 ((227853185823450011796547 - 1) / 212367687039617) 21708984997800517923089 (by decide)]
      exact zmod_natCast_ne_one (by decide) (by decide) (by decide)

theorem prime_127594226306900005382664386181896662579473947460767 : Nat.Prime 127594226306900005382664386181896662579473947460767 := by
  apply lucas_cert 127594226306900005382664386181896662579473947460767 5 [(2,1),(73,1),(149,1),(181,1),(11959,1),(11892231440692483,1),(227853185823450011796547,1)]
  · decide
  · intro pe hpe
    simp only [List.mem_cons, List.not_mem_nil, or_false] at hpe
    rcases hpe with rfl | rfl | rfl | rfl | rfl | rfl | rfl
    · norm_num
    · norm_num
    · norm_num
    · norm_num
    · norm_num
    · exact prime_11892231440692483
    · exact prime_227853185823450011796547
  · rw [zmod_pow_of_powMod 175 5 (127594226306900005382664386181896662579473947460767 - 1) 1 (by decide)]
    exact Nat.cast_one
  · intro pe hpe
    simp only [List.mem_cons, List.not_mem_nil, or_false] at hpe
    rcases hpe with rfl | rfl | rfl | rfl | rfl | rfl | rfl
    · rw [zmod_pow_of_powMod 175 5 ((127594226306900005382664386181896662579473947460767 - 1) / 2) 127594226306900005382664386181896662579473947460766 (by decide)]
      exact zmod_natCast_ne_one (by decide) (by decide) (by decide)
    · rw [zmod_pow_of_powMod 175 5 ((127594226306900005382664386181896662579473947460767 - 1) / 73) 101012322304786361004820689163019453326291174951437 (by decide)]
      exact zmod_natCast_ne_one (by decide) (by decide) (by decide)
    · rw [zmod_pow_of_powMod 175 5 ((127594226306900005382664386181896662579473947460767 - 1) / 149) 80363898418183659381710133602671340878592045815455 (by decide)]
      exact zmod_natCast_ne_one (by decide) (by decide) (by decide)
    · rw [zmod_pow_of_powMod 175 5 ((127594226306900005382664386181896662579473947460767 - 1) / 181) 46131817562093416288725052732321335685501487129895 (by decide)]
      exact zmod_natCast_ne_one (by decide) (by decide) (by decide)
    · rw [zmod_pow_of_powMod 175 5 ((127594226306900005382664386181896662579473947460767 - 1) / 11959) 30028847665582612316797380016973974953138873873776 (by decide)]
      exact zmod_natCast_ne_one (by decide) (by decide) (by decide)
    · rw [zmod_pow_of_powMod 175 5 ((127594226306900005382664386181896662579473947460767 - 1) / 11892231440692483) 93025408506303326670415221578063677847403883373697 (by decide)]
      exact zmod_natCast_ne_one (by decide) (by decide) (by decide)
    · rw [zmod_pow_of_powMod 175 5 ((127594226306900005382664386181896662579473947460767 - 1) / 227853185823450011796547) 55884077058458158134356667842537101134161465625437 (by decide)]
      exact zmod_natCast_ne_one (by decide) (by decide) (by decide)

theorem prime_2111115437357092606062206234695386632838870926408408195193685246394721360383 : Nat.Prime 2111115437357092606062206234695386632838870926408408195193685246394721360383 := by
  apply lucas_cert 2111115437357092606062206234695386632838870926408408195193685246394721360383 5 [(2,1),(1553,1),(1282495723,1),(4153589585267,1),(127594226306900005382664386181896662579473947460767,1)]
  · decide
  · intro pe hpe
    simp only [List.mem_cons, List.not_mem_nil, or_false] at hpe
    rcases hpe with rfl | rfl | rfl | rfl | rfl
    · norm_num
    · norm_num
    · exact prime_1282495723
    · exact prime_4153589585267
    · exact prime_127594226306900005382664386181896662579473947460767
  · rw [zmod_pow_of_powMod 259 5 (2111115437357092606062206234695386632838870926408408195193685246394721360383 - 1) 1 (by decide)]
    exact Nat.cast_one
  · intro pe hpe
    simp only [List.mem_cons, List.not_mem_nil, or_false] at hpe
    rcases hpe with rfl | rfl | rfl | rfl | rfl
    · rw [zmod_pow_of_powMod 259 5 ((2111115437357092606062206234695386632838870926408408195193685246394721360383 - 1) / 2) 2111115437357092606062206234695386632838870926408408195193685246394721360382 (by decide)]
      exact zmod_natCast_ne_one (by decide) (by decide) (by decide)
    · rw [zmod_pow_of_powMod 259 5 ((2111115437357092606062206234695386632838870926408408195193685246394721360383 - 1) / 1553) 1391861170358034884840924837349094844063925463414013713103077062590155328885 (by decide)]
      exact zmod_natCast_ne_one (by decide) (by decide) (by decide)
    · rw [zmod_pow_of_powMod 259 5 ((2111115437357092606062206234695386632838870926408408195193685246394721360383 - 1) / 1282495723) 1737599215456330911568858784324915608348175667106537588446656573277384712822 (by decide)]
      exact zmod_natCast_ne_one (by decide) (by decide) (by decide)
    · rw [zmod_pow_of_powMod 259 5 ((2111115437357092606062206234695386632838870926408408195193685246394721360383 - 1) / 4153589585267) 889710436780240755268337049164560412083387489614108389278040299885207978440 (by decide)]
      exact zmod_natCast_ne_one (by decide) (by decide) (by decide)
    · rw [zmod_pow_of_powMod 259 5 ((2111115437357092606062206234695386632838870926408408195193685246394721360383 - 1) / 127594226306900005382664386181896662579473947460767) 1574819382628785004307624465216172924199448480267596433081578651181057536541 (by decide)]
      exact zmod_natCast_ne_one (by decide) (by decide) (by decide)

theorem prime_8444461749428370424248824938781546531375899335154063827935233455917409239041 : Nat.Prime 8444461749428370424248824938781546531375899335154063827935233455917409239041 := by
  apply lucas_cert 8444461749428370424248824938781546531375899335154063827935233455917409239041 22 [(2,47),(3,1),(5,1),(7,1),(13,1),(499,1),(958612291309063373,1),(9586122913090633729,2)]
  · decide
  · intro pe hpe
    simp only [List.mem_cons, List.not_mem_nil, or_false] at hpe
    rcases hpe with rfl | rfl | rfl | rfl | rfl | rfl | rfl | rfl
    · norm_num
    · norm_num
    · norm_num
    · norm_num
    · norm_num
    · norm_num
    · exact prime_958612291309063373
    · exact prime_9586122913090633729
  · rw [zmod_pow_of_powMod 261 22 (8444461749428370424248824938781546531375899335154063827935233455917409239041 - 1) 1 (by decide)]
    exact Nat.cast_one
  · intro pe hpe
    simp only [List.mem_cons, List.not_mem_nil, or_false] at hpe
    rcases hpe with rfl | rfl | rfl | rfl | rfl | rfl | rfl | rfl
    · rw [zmod_pow_of_powMod 261 22 ((8444461749428370424248824938781546531375899335154063827935233455917409239041 - 1) / 2) 8444461749428370424248824938781546531375899335154063827935233455917409239040 (by decide)]
      exact zmod_natCast_ne_one (by decide) (by decide) (by decide)
    · rw [zmod_pow_of_powMod 261 22 ((8444461749428370424248824938781546531375899335154063827935233455917409239041 - 1) / 3) 8444461749428370424248824938781546531284005582649182570233710176290576793600 (by decide)]
      exact zmod_natCast_ne_one (by decide) (by decide) (by decide)
    · rw [zmod_pow_of_powMod 261 22 ((8444461749428370424248824938781546531375899335154063827935233455917409239041 - 1) / 5) 994254322299771227889837159282623832752825444841713417521485258274140195106 (by decide)]
      exact zmod_natCast_ne_one (by decide) (by decide) (by decide)
    · rw [zmod_pow_of_powMod 261 22 ((8444461749428370424248824938781546531375899335154063827935233455917409239041 - 1) / 7) 3806160955094562116421050616880809404450202398977431724757427984453760640339 (by decide)]
      exact zmod_natCast_ne_one (by decide) (by decide) (by decide)
    · rw [zmod_pow_of_powMod 261 22 ((8444461749428370424248824938781546531375899335154063827935233455917409239041 - 1) / 13) 198148372711667438138059832136721687849618487681926474130296837527257500326 (by decide)]
      exact zmod_natCast_ne_one (by decide) (by decide) (by decide)
    · rw [zmod_pow_of_powMod 261 22 ((8444461749428370424248824938781546531375899335154063827935233455917409239041 - 1) / 499) 4173542478559438981342560468848446894582242620036714968545606683210807590180 (by decide)]
      exact zmod_natCast_ne_one (by decide) (by decide) (by decide)
    · rw [zmod_pow_of_powMod 261 22 ((8444461749428370424248824938781546531375899335154063827935233455917409239041 - 1) / 958612291309063373) 2966376239223494464142039452437033225344837037917207904568123627319800783753 (by decide)]
      exact zmod_natCast_ne_one (by decide) (by decide) (by decide)
    · rw [zmod_pow_of_powMod 261 22 ((8444461749428370424248824938781546531375899335154063827935233455917409239041 - 1) / 9586122913090633729) 3314834682323362405979798855656221496739739631356097391756639575664568160869 (by decide)]
      exact zmod_natCast_ne_one (by decide) (by decide) (by decide)

theorem prime_5301089 : Nat.Prime 5301089 := by
  apply lucas_cert 5301089 3 [(2,5),(13,1),(12743,1)]
  · decide
  · intro pe hpe
    simp only [List.mem_cons, List.not_mem_nil, or_false] at hpe
    rcases hpe with rfl | rfl | rfl
    · norm_num
    · norm_num
    · norm_num
  · rw [zmod_pow_of_powMod 31 3 (5301089 - 1) 1 (by decide)]
    exact Nat.cast_one
  · intro pe hpe
    simp only [List.mem_cons, List.not_mem_nil, or_false] at hpe
    rcases hpe with rfl | rfl | rfl
    · rw [zmod_pow_of_powMod 31 3 ((5301089 - 1) / 2) 5301088 (by decide)]
      exact zmod_natCast_ne_one (by decide) (by decide) (by decide)
    · rw [zmod_pow_of_powMod 31 3 ((5301089 - 1) / 13) 3482990 (by decide)]
      exact zmod_natCast_ne_one (by decide) (by decide) (by decide)
    · rw [zmod_pow_of_powMod 31 3 ((5301089 - 1) / 12743) 4249027 (by decide)]
      exact zmod_natCast_ne_one (by decide) (by decide) (by decide)

theorem prime_8583511 : Nat.Prime 8583511 := by
  apply lucas_cert 8583511 6 [(2,1),(3,1),(5,1),(13,2),(1693,1)]
  · decide
  · intro pe hpe
    simp only [List.mem_cons, List.not_mem_nil, or_false] at hpe
    rcases hpe with rfl | rfl | rfl | rfl | rfl
    · norm_num
    · norm_num
    · norm_num
    · norm_num
    · norm_num
  · rw [zmod_pow_of_powMod 32 6 (8583511 - 1) 1 (by decide)]
    exact Nat.cast_one
  · intro pe hpe
    simp only [List.mem_cons, List.not_mem_nil, or_false] at hpe
    rcases hpe with rfl | rfl | rfl | rfl | rfl
    · rw [zmod_pow_of_powMod 32 6 ((8583511 - 1) / 2) 8583510 (by decide)]
      exact zmod_natCast_ne_one (by decide) (by decide) (by decide)
    · rw [zmod_pow_of_powMod 32 6 ((8583511 - 1) / 3) 618804 (by decide)]
      exact zmod_natCast_ne_one (by decide) (by decide) (by decide)
    · rw [zmod_pow_of_powMod 32 6 ((8583511 - 1) / 5) 5066101 (by decide)]
      exact zmod_natCast_ne_one (by decide) (by decide) (by decide)
    · rw [zmod_pow_of_powMod 32 6 ((8583511 - 1) / 13) 6558199 (by decide)]
      exact zmod_natCast_ne_one (by decide) (by decide) (by decide)
    · rw [zmod_pow_of_powMod 32 6 ((8583511 - 1) / 1693) 6123556 (by decide)]
      exact zmod_natCast_ne_one (by decide) (by decide) (by decide)

theorem prime_22433633 : Nat.Prime 22433633 := by
  apply lucas_cert 22433633 3 [(2,5),(13,1),(53927,1)]
  · decide
  · intro pe hpe
    simp only [List.mem_cons, List.not_mem_nil, or_false] at hpe
    rcases hpe with rfl | rfl | rfl
    · norm_num
    · norm_num
    · norm_num
  · rw [zmod_pow_of_powMod 33 3 (22433633 - 1) 1 (by decide)]
    exact Nat.cast_one
  · intro pe hpe
    simp only [List.mem_cons, List.not_mem_nil, or_false] at hpe
    rcases hpe with rfl | rfl | rfl
    · rw [zmod_pow_of_powMod 33 3 ((22433633 - 1) / 2) 22433632 (by decide)]
      exact zmod_natCast_ne_one (by decide) (by decide) (by decide)
    · rw [zmod_pow_of_powMod 33 3 ((22433633 - 1) / 13) 15863225 (by decide)]
      exact zmod_natCast_ne_one (by decide) (by decide) (by decide)
    · rw [zmod_pow_of_powMod 33 3 ((22433633 - 1) / 53927) 17157963 (by decide)]
      exact zmod_natCast_ne_one (by decide) (by decide) (by decide)

theorem prime_71924131 : Nat.Prime 71924131 := by
  apply lucas_cert 71924131 2 [(2,1),(3,2),(5,1),(317,1),(2521,1)]
  · decide
  · intro pe hpe
    simp only [List.mem_cons, List.not_mem_nil, or_false] at hpe
    rcases hpe with rfl | rfl | rfl | rfl | rfl
    · norm_num
    · norm_num
    · norm_num
    · norm_num
    · norm_num
  · rw [zmod_pow_of_powMod 35 2 (71924131 - 1) 1 (by decide)]
    exact Nat.cast_one
  · intro pe hpe
    simp only [List.mem_cons, List.not_mem_nil, or_false] at hpe
    rcases hpe with rfl | rfl | rfl | rfl | rfl
    · rw [zmod_pow_of_powMod 35 2 ((71924131 - 1) / 2) 71924130 (by decide)]
      exact zmod_natCast_ne_one (by decide) (by decide) (by decide)
    · rw [zmod_pow_of_powMod 35 2 ((71924131 - 1) / 3) 23906102 (by decide)]
      exact zmod_natCast_ne_one (by decide) (by decide) (by decide)
    · rw [zmod_pow_of_powMod 35 2 ((71924131 - 1) / 5) 48902242 (by decide)]
      exact zmod_natCast_ne_one (by decide) (by decide) (by decide)
    · rw [zmod_pow_of_powMod 35 2 ((71924131 - 1) / 317) 7103380 (by decide)]
      exact zmod_natCast_ne_one (by decide) (by decide) (by decide)
    · rw [zmod_pow_of_powMod 35 2 ((71924131 - 1) / 2521) 10242923 (by decide)]
      exact zmod_natCast_ne_one (by decide) (by decide) (by decide)

theorem prime_4777599223 : Nat.Prime 4777599223 := by
  apply lucas_cert 4777599223 3 [(2,1),(3,2),(11,1),(59,1),(408971,1)]
  · decide
  · intro pe hpe
    simp only [List.mem_cons, List.not_mem_nil, or_false] at hpe
    rcases hpe with rfl | rfl | rfl | rfl | rfl
    · norm_num
    · norm_num
    · norm_num
    · norm_num
    · norm_num
  · rw [zmod_pow_of_powMod 41 3 (4777599223 - 1) 1 (by decide)]
    exact Nat.cast_one
  · intro pe hpe
    simp only [List.mem_cons, List.not_mem_nil, or_false] at hpe
    rcases hpe with rfl | rfl | rfl | rfl | rfl
    · rw [zmod_pow_of_powMod 41 3 ((4777599223 - 1) / 2) 4777599222 (by decide)]
      exact zmod_natCast_ne_one (by decide) (by decide) (by decide)
    · rw [zmod_pow_of_powMod 41 3 ((4777599223 - 1) / 3) 2741362759 (by decide)]
      exact zmod_natCast_ne_one (by decide) (by decide) (by decide)
    · rw [zmod_pow_of_powMod 41 3 ((4777599223 - 1) / 11) 720830129 (by decide)]
      exact zmod_natCast_ne_one (by decide) (by decide) (by decide)
    · rw [zmod_pow_of_powMod 41 3 ((4777599223 - 1) / 59) 1301483354 (by decide)]
      exact zmod_natCast_ne_one (by decide) (by decide) (by decide)
    · rw [zmod_pow_of_powMod 41 3 ((4777599223 - 1) / 408971) 4353179676 (by decide)]
      exact zmod_natCast_ne_one (by decide) (by decide) (by decide)

theorem prime_76872275827 : Nat.Prime 76872275827 := by
  apply lucas_cert 76872275827 2 [(2,1),(3,1),(17,2),(19,1),(23,1),(229,1),(443,1)]
  · decide
  · intro pe hpe
    simp only [List.mem_cons, List.not_mem_nil, or_false] at hpe
    rcases hpe with rfl | rfl | rfl | rfl | rfl | rfl | rfl
    · norm_num
    · norm_num
    · norm_num
    · norm_num
    · norm_num
    · norm_num
    · norm_num
  · rw [zmod_pow_of_powMod 45 2 (76872275827 - 1) 1 (by decide)]
    exact Nat.cast_one
  · intro pe hpe
    simp only [List.mem_cons, List.not_mem_nil, or_false] at hpe
    rcases hpe with rfl | rfl | rfl | rfl | rfl | rfl | rfl
    · rw [zmod_pow_of_powMod 45 2 ((76872275827 - 1) / 2) 76872275826 (by decide)]
      exact zmod_natCast_ne_one (by decide) (by decide) (by decide)
    · rw [zmod_pow_of_powMod 45 2 ((76872275827 - 1) / 3) 46335796341 (by decide)]
      exact zmod_natCast_ne_one (by decide) (by decide) (by decide)
    · rw [zmod_pow_of_powMod 45 2 ((76872275827 - 1) / 17) 58947574388 (by decide)]
      exact zmod_natCast_ne_one (by decide) (by decide) (by decide)
    · rw [zmod_pow_of_powMod 45 2 ((76872275827 - 1) / 19) 30859558590 (by decide)]
      exact zmod_natCast_ne_one (by decide) (by decide) (by decide)
    · rw [zmod_pow_of_powMod 45 2 ((76872275827 - 1) / 23) 1172171340 (by decide)]
      exact zmod_natCast_ne_one (by decide) (by decide) (by decide)
    · rw [zmod_pow_of_powMod 45 2 ((76872275827 - 1) / 229) 52959723674 (by decide)]
      exact zmod_natCast_ne_one (by decide) (by decide) (by decide)
    · rw [zmod_pow_of_powMod 45 2 ((76872275827 - 1) / 443) 29179434554 (by decide)]
      exact zmod_natCast_ne_one (by decide) (by decide) (by decide)

theorem prime_494527005853 : Nat.Prime 494527005853 := by
  apply lucas_cert 494527005853 5 [(2,2),(3,1),(11,1),(167,1),(22433633,1)]
  · decide
  · intro pe hpe
    simp only [List.mem_cons, List.not_mem_nil, or_false] at hpe
    rcases hpe with rfl | rfl | rfl | rfl | rfl
    · norm_num
    · norm_num
    · norm_num
    · norm_num
    · exact prime_22433633
  · rw [zmod_pow_of_powMod 47 5 (494527005853 - 1) 1 (by decide)]
    exact Nat.cast_one
  · intro pe hpe
    simp only [List.mem_cons, List.not_mem_nil, or_false] at hpe
    rcases hpe with rfl | rfl | rfl | rfl | rfl
    · rw [zmod_pow_of_powMod 47 5 ((494527005853 - 1) / 2) 494527005852 (by decide)]
      exact zmod_natCast_ne_one (by decide) (by decide) (by decide)
    · rw [zmod_pow_of_powMod 47 5 ((494527005853 - 1) / 3) 328349840629 (by decide)]
      exact zmod_natCast_ne_one (by decide) (by decide) (by decide)
    · rw [zmod_pow_of_powMod 47 5 ((494527005853 - 1) / 11) 178846914211 (by decide)]
      exact zmod_natCast_ne_one (by decide) (by decide) (by decide)
    · rw [zmod_pow_of_powMod 47 5 ((494527005853 - 1) / 167) 396914034623 (by decide)]
      exact zmod_natCast_ne_one (by decide) (by decide) (by decide)
    · rw [zmod_pow_of_powMod 47 5 ((494527005853 - 1) / 22433633) 457696108997 (by decide)]
      exact zmod_natCast_ne_one (by decide) (by decide) (by decide)

theorem prime_1844934619849 : Nat.Prime 1844934619849 := by
  apply lucas_cert 1844934619849 14 [(2,3),(3,1),(76872275827,1)]
  · decide
  · intro pe hpe
    simp only [List.mem_cons, List.not_mem_nil, or_false] at hpe
    rcases hpe with rfl | rfl | rfl
    · norm_num
    · norm_num
    · exact prime_76872275827
  · rw [zmod_pow_of_powMod 49 14 (1844934619849 - 1) 1 (by decide)]
    exact Nat.cast_one
  · intro pe hpe
    simp only [List.mem_cons, List.not_mem_nil, or_false] at hpe
    rcases hpe with rfl | rfl | rfl
    · rw [zmod_pow_of_powMod 49 14 ((1844934619849 - 1) / 2) 1844934619848 (by decide)]
      exact zmod_natCast_ne_one (by decide) (by decide) (by decide)
    · rw [zmod_pow_of_powMod 49 14 ((1844934619849 - 1) / 3) 1739377239543 (by decide)]
      exact zmod_natCast_ne_one (by decide) (by decide) (by decide)
    · rw [zmod_pow_of_powMod 49 14 ((1844934619849 - 1) / 76872275827) 211893813233 (by decide)]
      exact zmod_natCast_ne_one (by decide) (by decide) (by decide)

theorem prime_5187222954756607 : Nat.Prime 5187222954756607 := by
  apply lucas_cert 5187222954756607 3 [(2,1),(3,1),(19,1),(5301089,1),(8583511,1)]
  · decide
  · intro pe hpe
    simp only [List.mem_cons, List.not_mem_nil, or_false] at hpe
    rcases hpe with rfl | rfl | rfl | rfl | rfl
    · norm_num
    · norm_num
    · norm_num
    · exact prime_5301089
    · exact prime_8583511
  · rw [zmod_pow_of_powMod 61 3 (5187222954756607 - 1) 1 (by decide)]
    exact Nat.cast_one
  · intro pe hpe
    simp only [List.mem_cons, List.not_mem_nil, or_false] at hpe
    rcases hpe with rfl | rfl | rfl | rfl | rfl
    · rw [zmod_pow_of_powMod 61 3 ((5187222954756607 - 1) / 2) 5187222954756606 (by decide)]
      exact zmod_natCast_ne_one (by decide) (by decide) (by decide)
    · rw [zmod_pow_of_powMod 61 3 ((5187222954756607 - 1) / 3) 1460161329210102 (by decide)]
      exact zmod_natCast_ne_one (by decide) (by decide) (by decide)
    · rw [zmod_pow_of_powMod 61 3 ((5187222954756607 - 1) / 19) 4688806449456510 (by decide)]
      exact zmod_natCast_ne_one (by decide) (by decide) (by decide)
    · rw [zmod_pow_of_powMod 61 3 ((5187222954756607 - 1) / 5301089) 333746915258215 (by decide)]
      exact zmod_natCast_ne_one (by decide) (by decide) (by decide)
    · rw [zmod_pow_of_powMod 61 3 ((5187222954756607 - 1) / 8583511) 4873612355546511 (by decide)]
      exact zmod_natCast_ne_one (by decide) (by decide) (by decide)

theorem prime_111286271775829695101 : Nat.Prime 111286271775829695101 := by
  apply lucas_cert 111286271775829695101 2 [(2,2),(5,2),(73,1),(8263,1),(1844934619849,1)]
  · decide
  · intro pe hpe
    simp only [List.mem_cons, List.not_mem_nil, or_false] at hpe
    rcases hpe with rfl | rfl | rfl | rfl | rfl
    · norm_num
    · norm_num
    · norm_num
    · norm_num
    · exact prime_1844934619849
  · rw [zmod_pow_of_powMod 75 2 (111286271775829695101 - 1) 1 (by decide)]
    exact Nat.cast_one
  · intro pe hpe
    simp only [List.mem_cons, List.not_mem_nil, or_false] at hpe
    rcases hpe with rfl | rfl | rfl | rfl | rfl
    · rw [zmod_pow_of_powMod 75 2 ((111286271775829695101 - 1) / 2) 111286271775829695100 (by decide)]
      exact zmod_natCast_ne_one (by decide) (by decide) (by decide)
    · rw [zmod_pow_of_powMod 75 2 ((111286271775829695101 - 1) / 5) 100107988575787592629 (by decide)]
      exact zmod_natCast_ne_one (by decide) (by decide) (by decide)
    · rw [zmod_pow_of_powMod 75 2 ((111286271775829695101 - 1) / 73) 32525347519051476366 (by decide)]
      exact zmod_natCast_ne_one (by decide) (by decide) (by decide)
    · rw [zmod_pow_of_powMod 75 2 ((111286271775829695101 - 1) / 8263) 79982719621628329138 (by decide)]
      exact zmod_natCast_ne_one (by decide) (by decide) (by decide)
    · rw [zmod_pow_of_powMod 75 2 ((111286271775829695101 - 1) / 1844934619849) 52895213838405038244 (by decide)]
      exact zmod_natCast_ne_one (by decide) (by decide) (by decide)

theorem prime_222572543551659390203 : Nat.Prime 222572543551659390203 := by
  apply lucas_cert 222572543551659390203 2 [(2,1),(111286271775829695101,1)]
  · decide
  · intro pe hpe
    simp only [List.mem_cons, List.not_mem_nil, or_false] at hpe
    rcases hpe with rfl | rfl
    · norm_num
    · exact prime_111286271775829695101
  · rw [zmod_pow_of_powMod 76 2 (222572543551659390203 - 1) 1 (by decide)]
    exact Nat.cast_one
  · intro pe hpe
    simp only [List.mem_cons, List.not_mem_nil, or_false] at hpe
    rcases hpe with rfl | rfl
    · rw [zmod_pow_of_powMod 76 2 ((222572543551659390203 - 1) / 2) 222572543551659390202 (by decide)]
      exact zmod_natCast_ne_one (by decide) (by decide) (by decide)
    · rw [zmod_pow_of_powMod 76 2 ((222572543551659390203 - 1) / 111286271775829695101) 4 (by decide)]
      exact zmod_natCast_ne_one (by decide) (by decide) (by decide)

theorem prime_6633514200929891813 : Nat.Prime 6633514200929891813 := by
  apply lucas_cert 6633514200929891813 2 [(2,2),(19,1),(25537,1),(47521,1),(71924131,1)]
  · decide
  · intro pe hpe
    simp only [List.mem_cons, List.not_mem_nil, or_false] at hpe
    rcases hpe with rfl | rfl | rfl | rfl | rfl
    · norm_num
    · norm_num
    · norm_num
    · norm_num
    · exact prime_71924131
  · rw [zmod_pow_of_powMod 71 2 (6633514200929891813 - 1) 1 (by decide)]
    exact Nat.cast_one
  · intro pe hpe
    simp only [List.mem_cons, List.not_mem_nil, or_false] at hpe
    rcases hpe with rfl | rfl | rfl | rfl | rfl
    · rw [zmod_pow_of_powMod 71 2 ((6633514200929891813 - 1) / 2) 6633514200929891812 (by decide)]
      exact zmod_natCast_ne_one (by decide) (by decide) (by decide)
    · rw [zmod_pow_of_powMod 71 2 ((6633514200929891813 - 1) / 19) 555438212565085538 (by decide)]
      exact zmod_natCast_ne_one (by decide) (by decide) (by decide)
    · rw [zmod_pow_of_powMod 71 2 ((6633514200929891813 - 1) / 25537) 2624036308083993485 (by decide)]
      exact zmod_natCast_ne_one (by decide) (by decide) (by decide)
    · rw [zmod_pow_of_powMod 71 2 ((6633514200929891813 - 1) / 47521) 608978661488936755 (by decide)]
      exact zmod_natCast_ne_one (by decide) (by decide) (by decide)
    · rw [zmod_pow_of_powMod 71 2 ((6633514200929891813 - 1) / 71924131) 1465767641301292076 (by decide)]
      exact zmod_natCast_ne_one (by decide) (by decide) (by decide)

theorem prime_97931919162730131689321 : Nat.Prime 97931919162730131689321 := by
  apply lucas_cert 97931919162730131689321 3 [(2,3),(5,1),(11,1),(222572543551659390203,1)]
  · decide
  · intro pe hpe
    simp only [List.mem_cons, List.not_mem_nil, or_false] at hpe
    rcases hpe with rfl | rfl | rfl | rfl
    · norm_num
    · norm_num
    · norm_num
    · exact prime_222572543551659390203
  · rw [zmod_pow_of_powMod 85 3 (97931919162730131689321 - 1) 1 (by decide)]
    exact Nat.cast_one
  · intro pe hpe
    simp only [List.mem_cons, List.not_mem_nil, or_false] at hpe
    rcases hpe with rfl | rfl | rfl | rfl
    · rw [zmod_pow_of_powMod 85 3 ((97931919162730131689321 - 1) / 2) 97931919162730131689320 (by decide)]
      exact zmod_natCast_ne_one (by decide) (by decide) (by decide)
    · rw [zmod_pow_of_powMod 85 3 ((97931919162730131689321 - 1) / 5) 74493540307890619864879 (by decide)]
      exact zmod_natCast_ne_one (by decide) (by decide) (by decide)
    · rw [zmod_pow_of_powMod 85 3 ((97931919162730131689321 - 1) / 11) 79205808357982187858960 (by decide)]
      exact zmod_natCast_ne_one (by decide) (by decide) (by decide)
    · rw [zmod_pow_of_powMod 85 3 ((97931919162730131689321 - 1) / 222572543551659390203) 59259993179157290898690 (by decide)]
      exact zmod_natCast_ne_one (by decide) (by decide) (by decide)

theorem prime_3721412928183745004194199 : Nat.Prime 3721412928183745004194199 := by
  apply lucas_cert 3721412928183745004194199 13 [(2,1),(19,1),(97931919162730131689321,1)]
  · decide
  · intro pe hpe
    simp only [List.mem_cons, List.not_mem_nil, or_false] at hpe
    rcases hpe with rfl | rfl | rfl
    · norm_num
    · norm_num
    · exact prime_97931919162730131689321
  · rw [zmod_pow_of_powMod 90 13 (3721412928183745004194199 - 1) 1 (by decide)]
    exact Nat.cast_one
  · intro pe hpe
    simp only [List.mem_cons, List.not_mem_nil, or_false] at hpe
    rcases hpe with rfl | rfl | rfl
    · rw [zmod_pow_of_powMod 90 13 ((3721412928183745004194199 - 1) / 2) 3721412928183745004194198 (by decide)]
      exact zmod_natCast_ne_one (by decide) (by decide) (by decide)
    · rw [zmod_pow_of_powMod 90 13 ((3721412928183745004194199 - 1) / 19) 687167963174385058604506 (by decide)]
      exact zmod_natCast_ne_one (by decide) (by decide) (by decide)
    · rw [zmod_pow_of_powMod 90 13 ((3721412928183745004194199 - 1) / 97931919162730131689321) 747016483025721195304427 (by decide)]
      exact zmod_natCast_ne_one (by decide) (by decide) (by decide)

theorem prime_7880826209898991662826602799 : Nat.Prime 7880826209898991662826602799 := by
  apply lucas_cert 7880826209898991662826602799 21 [(2,1),(3,1),(53,1),(4777599223,1),(5187222954756607,1)]
  · decide
  · intro pe hpe
    simp only [List.mem_cons, List.not_mem_nil, or_false] at hpe
    rcases hpe with rfl | rfl | rfl | rfl | rfl
    · norm_num
    · norm_num
    · norm_num
    · exact prime_4777599223
    · exact prime_5187222954756607
  · rw [zmod_pow_of_powMod 101 21 (7880826209898991662826602799 - 1) 1 (by decide)]
    exact Nat.cast_one
  · intro pe hpe
    simp only [List.mem_cons, List.not_mem_nil, or_false] at hpe
    rcases hpe with rfl | rfl | rfl | rfl | rfl
    · rw [zmod_pow_of_powMod 101 21 ((7880826209898991662826602799 - 1) / 2) 7880826209898991662826602798 (by decide)]
      exact zmod_natCast_ne_one (by decide) (by decide) (by decide)
    · rw [zmod_pow_of_powMod 101 21 ((7880826209898991662826602799 - 1) / 3) 4297544860793996627159146970 (by decide)]
      exact zmod_natCast_ne_one (by decide) (by decide) (by decide)
    · rw [zmod_pow_of_powMod 101 21 ((7880826209898991662826602799 - 1) / 53) 2443702706456142704251500387 (by decide)]
      exact zmod_natCast_ne_one (by decide) (by decide) (by decide)
    · rw [zmod_pow_of_powMod 101 21 ((7880826209898991662826602799 - 1) / 4777599223) 6049053346842881577160993000 (by decide)]
      exact zmod_natCast_ne_one (by decide) (by decide) (by decide)
    · rw [zmod_pow_of_powMod 101 21 ((7880826209898991662826602799 - 1) / 5187222954756607) 1427976135397438705432559889 (by decide)]
      exact zmod_natCast_ne_one (by decide) (by decide) (by decide)

theorem prime_73387170334035996766247648424745786170238574695861388454532790956181 : Nat.Prime 73387170334035996766247648424745786170238574695861388454532790956181 := by
  apply lucas_cert 73387170334035996766247648424745786170238574695861388454532790956181 3 [(2,2),(5,1),(11,1),(23,1),(494527005853,1),(3721412928183745004194199,1),(7880826209898991662826602799,1)]
  · decide
  · intro pe hpe
    simp only [List.mem_cons, List.not_mem_nil, or_false] at hpe
    rcases hpe with rfl | rfl | rfl | rfl | rfl | rfl | rfl
    · norm_num
    · norm_num
    · norm_num
    · norm_num
    · exact prime_494527005853
    · exact prime_3721412928183745004194199
    · exact prime_7880826209898991662826602799
  · rw [zmod_pow_of_powMod 234 3 (73387170334035996766247648424745786170238574695861388454532790956181 - 1) 1 (by decide)]
    exact Nat.cast_one
  · intro pe hpe
    simp only [List.mem_cons, List.not_mem_nil, or_false] at hpe
    rcases hpe with rfl | rfl | rfl | rfl | rfl | rfl | rfl
    · rw [zmod_pow_of_powMod 234 3 ((73387170334035996766247648424745786170238574695861388454532790956181 - 1) / 2) 73387170334035996766247648424745786170238574695861388454532790956180 (by decide)]
      exact zmod_natCast_ne_one (by decide) (by decide) (by decide)
    · rw [zmod_pow_of_powMod 234 3 ((73387170334035996766247648424745786170238574695861388454532790956181 - 1) / 5) 14623347914342492829222111810485516123693085000241664845017341823907 (by decide)]
      exact zmod_natCast_ne_one (by decide) (by decide) (by decide)
    · rw [zmod_pow_of_powMod 234 3 ((73387170334035996766247648424745786170238574695861388454532790956181 - 1) / 11) 40009963285548060417479495204056649132445509224199252477842783416979 (by decide)]
      exact zmod_natCast_ne_one (by decide) (by decide) (by decide)
    · rw [zmod_pow_of_powMod 234 3 ((73387170334035996766247648424745786170238574695861388454532790956181 - 1) / 23) 1867481481668724362229358692440854713154873819968389330855402279631 (by decide)]
      exact zmod_natCast_ne_one (by decide) (by decide) (by decide)
    · rw [zmod_pow_of_powMod 234 3 ((73387170334035996766247648424745786170238574695861388454532790956181 - 1) / 494527005853) 50474866076487016695302091398887452414903669028141208907944599218770 (by decide)]
      exact zmod_natCast_ne_one (by decide) (by decide) (by decide)
    · rw [zmod_pow_of_powMod 234 3 ((73387170334035996766247648424745786170238574695861388454532790956181 - 1) / 3721412928183745004194199) 15111769504316864424346322659910758651792372915299465926932754254480 (by decide)]
      exact zmod_natCast_ne_one (by decide) (by decide) (by decide)
    · rw [zmod_pow_of_powMod 234 3 ((73387170334035996766247648424745786170238574695861388454532790956181 - 1) / 7880826209898991662826602799) 164179318573162795596425133009853618211069136832636253065817401955 (by decide)]
      exact zmod_natCast_ne_one (by decide) (by decide) (by decide)

theorem prime_258664426012969094010652733694893533536393512754914660539884262666720468348340822774968888139573360124440321458177 : Nat.Prime 258664426012969094010652733694893533536393512754914660539884262666720468348340822774968888139573360124440321458177 := by
  apply lucas_cert 258664426012969094010652733694893533536393512754914660539884262666720468348340822774968888139573360124440321458177 15 [(2,46),(3,1),(7,1),(13,1),(499,1),(53,1),(409,1),(2557,1),(6633514200929891813,1),(73387170334035996766247648424745786170238574695861388454532790956181,1)]
  · decide
  · intro pe hpe
    simp only [List.mem_cons, List.not_mem_nil, or_false] at hpe
    rcases hpe with rfl | rfl | rfl | rfl | rfl | rfl | rfl | rfl | rfl | rfl
    · norm_num
    · norm_num
    · norm_num
    · norm_num
    · norm_num
    · norm_num
    · norm_num
    · norm_num
    · exact prime_6633514200929891813
    · exact prime_73387170334035996766247648424745786170238574695861388454532790956181
  · rw [zmod_pow_of_powMod 385 15 (258664426012969094010652733694893533536393512754914660539884262666720468348340822774968888139573360124440321458177 - 1) 1 (by decide)]
    exact Nat.cast_one
  · intro pe hpe
    simp only [List.mem_cons, List.not_mem_nil, or_false] at hpe
    rcases hpe with rfl | rfl | rfl | rfl | rfl | rfl | rfl | rfl | rfl | rfl
    · rw [zmod_pow_of_powMod 385 15 ((258664426012969094010652733694893533536393512754914660539884262666720468348340822774968888139573360124440321458177 - 1) / 2) 258664426012969094010652733694893533536393512754914660539884262666720468348340822774968888139573360124440321458176 (by decide)]
      exact zmod_natCast_ne_one (by decide) (by decide) (by decide)
    · rw [zmod_pow_of_powMod 385 15 ((258664426012969094010652733694893533536393512754914660539884262666720468348340822774968888139573360124440321458177 - 1) / 3) 80949648264912719408558363140637477264845294720710499478137287262712535938301461879813459410945 (by decide)]
      exact zmod_natCast_ne_one (by decide) (by decide) (by decide)
    · rw [zmod_pow_of_powMod 385 15 ((258664426012969094010652733694893533536393512754914660539884262666720468348340822774968888139573360124440321458177 - 1) / 7) 17014211180447826603408713418346387222584669404699292192401719879252891741955552054062498315520677229943748909899 (by decide)]
      exact zmod_natCast_ne_one (by decide) (by decide) (by decide)
    · rw [zmod_pow_of_powMod 385 15 ((258664426012969094010652733694893533536393512754914660539884262666720468348340822774968888139573360124440321458177 - 1) / 13) 56733979407307884698014799657942854806675352743420506218642068209105223805192383608308724367223747367678721765830 (by decide)]
      exact zmod_natCast_ne_one (by decide) (by decide) (by decide)
    · rw [zmod_pow_of_powMod 385 15 ((258664426012969094010652733694893533536393512754914660539884262666720468348340822774968888139573360124440321458177 - 1) / 499) 64597613146364280389590894497179963974597493921080825845014409747261478403457020236551740150864248840014115939681 (by decide)]
      exact zmod_natCast_ne_one (by decide) (by decide) (by decide)
    · rw [zmod_pow_of_powMod 385 15 ((258664426012969094010652733694893533536393512754914660539884262666720468348340822774968888139573360124440321458177 - 1) / 53) 30761945562126837057999398960876020556941406937967393035477835152315816249710538141428479962913043618684410109907 (by decide)]
      exact zmod_natCast_ne_one (by decide) (by decide) (by decide)
    · rw [zmod_pow_of_powMod 385 15 ((258664426012969094010652733694893533536393512754914660539884262666720468348340822774968888139573360124440321458177 - 1) / 409) 160427352237226388425408112687840677064078474886959403788950452868462966843772883341179874163021942250962100583875 (by decide)]
      exact zmod_natCast_ne_one (by decide) (by decide) (by decide)
    · rw [zmod_pow_of_powMod 385 15 ((258664426012969094010652733694893533536393512754914660539884262666720468348340822774968888139573360124440321458177 - 1) / 2557) 194921233261576890360397320171419534274698956365330509246424970245254228554114341978938472930230904781458960865072 (by decide)]
      exact zmod_natCast_ne_one (by decide) (by decide) (by decide)
    · rw [zmod_pow_of_powMod 385 15 ((258664426012969094010652733694893533536393512754914660539884262666720468348340822774968888139573360124440321458177 - 1) / 6633514200929891813) 154655961224517015335769095961997635277714902211009059870557480634985918233973045611653957465669617111431717133136 (by decide)]
      exact zmod_natCast_ne_one (by decide) (by decide) (by decide)
    · rw [zmod_pow_of_powMod 385 15 ((258664426012969094010652733694893533536393512754914660539884262666720468348340822774968888139573360124440321458177 - 1) / 73387170334035996766247648424745786170238574695861388454532790956181) 235760558334614583192346221927697757848653392152600829073827160544319636914282266023441653509350657106760852129029 (by decide)]
      exact zmod_natCast_ne_one (by decide) (by decide) (by decide)

theorem prime_p : Nat.Prime 258664426012969094010652733694893533536393512754914660539884262666720468348340822774968888139573360124440321458177 :=
  prime_258664426012969094010652733694893533536393512754914660539884262666720468348340822774968888139573360124440321458177

theorem prime_q : Nat.Prime 8444461749428370424248824938781546531375899335154063827935233455917409239041 :=
  prime_8444461749428370424248824938781546531375899335154063827935233455917409239041

theorem prime_ell : Nat.Prime 2111115437357092606062206234695386632838870926408408195193685246394721360383 :=
  prime_2111115437357092606062206234695386632838870926408408195193685246394721360383

/-! ### The base field Fq

The base field of the embedded Edwards curve is `ark_ed_on_bls12_377::Fq`,
the scalar field of BLS12-377; its modulus is the 253-bit prime below. -/

/-- Modulus of the base field `Fq` (the BLS12-377 scalar field). -/
def qval : ℕ := 8444461749428370424248824938781546531375899335154063827935233455917409239041

/-- The base field, modelled as the residue-class field at `qval`. -/
abbrev Fq := ZMod qval

instance : Fact (Nat.Prime qval) := ⟨prime_q⟩

instance : Fact (1 < qval) := ⟨by norm_num [qval]⟩

instance : NeZero qval := ⟨by norm_num [qval]⟩

/-- Integer value of the non-square witness `ZETA` (src/ark_curve/constants.rs
pins the Montgomery limbs `[5947794125541564500, 11292571455564096885,
11814268415718120036, 155746270000486182]`; this is the corresponding field
value, see `ZETA_montgomery_limbs`). -/
def zetaNat : ℕ := 2841681278031794617739547238867782961338435681360110683443920362658525667816

/-- The fixed non-square `ZETA` of `Fq`. -/
def ZETA : Fq := (zetaNat : ℕ)

/-- Confirmation that `ZETA` matches the pinned Montgomery limbs of
src/ark_curve/constants.rs: multiplying by the Montgomery factor `2^256`
recovers the little-endian limb value. -/
theorem ZETA_montgomery_limbs :
    ZETA * ((2 ^ 256 : ℕ) : Fq) =
      ((5947794125541564500 + 11292571455564096885 * 2 ^ 64 +
        11814268415718120036 * 2 ^ 128 + 155746270000486182 * 2 ^ 192 : ℕ) : Fq) := by
  decide

/-- Twisted Edwards coefficient `a = -1` of the embedded curve. -/
def COEFF_A : Fq := -1

/-- Twisted Edwards coefficient `d = 3021` of the embedded curve. -/
def COEFF_D : Fq := 3021

/-- Modelled from the spec: the base-field square root (provided by the
`ark_ff` field backend, not under `src/`).  Per §4.F it "Returns None iff the
input is not a quadratic residue"; the sign of the returned root is
unspecified (§4.S), and this model returns the root with the smallest
canonical representative. -/
def fqSqrt (x : Fq) : Option Fq :=
  if h : ∃ n, n < qval ∧ (n : Fq) * (n : Fq) = x then some ((Nat.find h : ℕ) : Fq) else none

theorem fqSqrt_sq {x r : Fq} (h : fqSqrt x = some r) : r * r = x := by
  unfold fqSqrt at h
  split at h
  · rename_i hex
    have hspec := Nat.find_spec hex
    cases h
    exact hspec.2
  · exact absurd h (by simp)

theorem fqSqrt_isSome_iff {x : Fq} : (fqSqrt x).isSome ↔ IsSquare x := by
  constructor
  · intro h
    obtain ⟨r, hr⟩ := Option.isSome_iff_exists.mp h
    exact ⟨r, (fqSqrt_sq hr).symm⟩
  · rintro ⟨r, hr⟩
    have hex : ∃ n, n < qval ∧ (n : Fq) * (n : Fq) = x := by
      refine ⟨r.val, ZMod.val_lt r, ?_⟩
      rw [ZMod.natCast_rightInverse r]
      exact hr.symm
    unfold fqSqrt
    rw [dif_pos hex]
    rfl

theorem fqSqrt_none_not_isSquare {x : Fq} (h : fqSqrt x = none) : ¬ IsSquare x := by
  intro hs
  have hsome := fqSqrt_isSome_iff.mpr hs
  rw [h] at hsome
  simp at hsome

theorem fqSqrt_some_of_isSquare {x : Fq} (h : IsSquare x) : ∃ r, fqSqrt x = some r ∧ r * r = x := by
  obtain ⟨r, hr⟩ := Option.isSome_iff_exists.mp (fqSqrt_isSome_iff.mpr h)
  exact ⟨r, hr, fqSqrt_sq hr⟩

/-! ### Euler-criterion facts about Fq -/

theorem qval_half_add : qval / 2 + qval / 2 = qval - 1 := by decide

theorem fq_pow_half_sq {x : Fq} (hx : x ≠ 0) :
    x ^ (qval / 2) = 1 ∨ x ^ (qval / 2) = -1 := by
  have h1 : x ^ (qval / 2) * x ^ (qval / 2) = 1 := by
    rw [← pow_add, qval_half_add]
    exact ZMod.pow_card_sub_one_eq_one hx
  exact mul_self_eq_one_iff.mp h1

theorem fq_nonsquare_of_pow_half {x : Fq} (hx : x ≠ 0) (h : x ^ (qval / 2) ≠ 1) :
    ¬ IsSquare x :=
  fun hs => h ((ZMod.euler_criterion qval hx).mp hs)

theorem fq_pow_half_of_nonsquare {x : Fq} (hx : x ≠ 0) (h : ¬ IsSquare x) :
    x ^ (qval / 2) = -1 := by
  rcases fq_pow_half_sq hx with h1 | h1
  · exact absurd ((ZMod.euler_criterion qval hx).mpr h1) h
  · exact h1

theorem fq_natCast_qval_sub_one : ((qval - 1 : ℕ) : Fq) = -1 := by
  rw [Nat.cast_sub (by norm_num [qval]), ZMod.natCast_self, Nat.cast_one, zero_sub]

theorem ZETA_pow_half : ZETA ^ (qval / 2) = -1 := by
  have h : ((zetaNat : ℕ) : Fq) ^ (qval / 2) = ((qval - 1 : ℕ) : Fq) :=
    zmod_pow_of_powMod 300 zetaNat (qval / 2) (qval - 1) (by decide)
  rw [show ZETA = ((zetaNat : ℕ) : Fq) from rfl, h, fq_natCast_qval_sub_one]

theorem ZETA_ne_zero : ZETA ≠ 0 := by decide

theorem neg_one_ne_one_fq : (-1 : Fq) ≠ 1 := by decide

theorem zeta_nonsquare : ¬ IsSquare ZETA :=
  fq_nonsquare_of_pow_half ZETA_ne_zero (by rw [ZETA_pow_half]; exact neg_one_ne_one_fq)

theorem isSquare_zeta_mul {t : Fq} (ht0 : t ≠ 0) (ht : ¬ IsSquare t) :
    IsSquare (ZETA * t) := by
  have hne : ZETA * t ≠ 0 := mul_ne_zero ZETA_ne_zero ht0
  refine (ZMod.euler_criterion qval hne).mpr ?_
  rw [mul_pow, ZETA_pow_half, fq_pow_half_of_nonsquare ht0 ht]
  ring

/-! ### The square-root-of-ratio primitive (src/invsqrt.rs) -/

/-- Translation of `Fq::sqrt_ratio_zeta` (src/invsqrt.rs).  The source
computes `uv = v.inverse().expect("nonzero") * u` and then takes `uv.sqrt()`,
falling back to `(ZETA * uv).sqrt().expect(..)` on the nonsquare branch.  The
`expect` call (which would panic if `ZETA * uv` were not square) is modelled
as a default of `0`; `sqrt_ratio_zeta_spec` shows that branch is never
taken. -/
def sqrtRatioZeta (u v : Fq) : Bool × Fq :=
  if u = 0 then (true, u)
  else if v = 0 then (false, v)
  else
    match fqSqrt (v⁻¹ * u) with
    | some sqrtUv => (true, sqrtUv)
    | none =>
      match fqSqrt (ZETA * (v⁻¹ * u)) with
      | some sqrtZetaUv => (false, sqrtZetaUv)
      | none => (false, 0)

/-- C1: for all `u, v` in `Fq`, `sqrt_ratio_zeta(u, v)` returns a pair
`(w, r)` such that: if `u = 0` then `w = true` and `r = 0`; otherwise if
`v = 0` then `w = false` and `r = 0`; otherwise `r² · v = u` when `w = true`
and `r² · v = ζ · u` when `w = false`, with `w = true` exactly when `u / v`
is a square in `Fq`. -/
theorem sqrt_ratio_zeta_spec (u v : Fq) :
    if u = 0 then sqrtRatioZeta u v = (true, 0)
    else if v = 0 then sqrtRatioZeta u v = (false, 0)
    else (sqrtRatioZeta u v).2 ^ 2 * v = (if (sqrtRatioZeta u v).1 then u else ZETA * u) ∧
      ((sqrtRatioZeta u v).1 = true ↔ IsSquare (u / v)) := by
  by_cases hu : u = 0
  · rw [if_pos hu]
    subst hu
    unfold sqrtRatioZeta
    rw [if_pos rfl]
  · by_cases hv : v = 0
    · rw [if_neg hu, if_pos hv]
      subst hv
      unfold sqrtRatioZeta
      rw [if_neg hu, if_pos rfl]
    · rw [if_neg hu, if_neg hv]
      have huv : v⁻¹ * u ≠ 0 := mul_ne_zero (inv_ne_zero hv) hu
      have hdiv : u / v = v⁻¹ * u := by rw [div_eq_mul_inv, mul_comm]
      rcases hs : fqSqrt (v⁻¹ * u) with _ | r
      · have hnsq : ¬ IsSquare (v⁻¹ * u) := fqSqrt_none_not_isSquare hs
        have hz : IsSquare (ZETA * (v⁻¹ * u)) := isSquare_zeta_mul huv hnsq
        obtain ⟨r', hr', hsq'⟩ := fqSqrt_some_of_isSquare hz
        have hres : sqrtRatioZeta u v = (false, r') := by
          unfold sqrtRatioZeta
          rw [if_neg hu, if_neg hv, hs, hr']
        rw [hres]
        constructor
        · show r' ^ 2 * v = if false then u else ZETA * u
          rw [if_neg (by simp), sq, hsq']
          field_simp
        · rw [hdiv]
          simp only [Bool.false_eq_true, false_iff]
          exact hnsq
      · have hr2 : r * r = v⁻¹ * u := fqSqrt_sq hs
        have hres : sqrtRatioZeta u v = (true, r) := by
          unfold sqrtRatioZeta
          rw [if_neg hu, if_neg hv, hs]
        rw [hres]
        constructor
        · show r ^ 2 * v = if true then u else ZETA * u
          rw [if_pos rfl, sq, hr2]
          field_simp
        · rw [hdiv]
          simp only [true_iff]
          exact ⟨r, hr2.symm⟩

/-! ### Decaf sign convention and decompression

The gadget helpers `is_nonnegative`, `is_negative` and `isqrt` live in the
`FqVarExtension` trait (src/r1cs/fqvar_ext.rs and
src/ark_curve/r1cs/fqvar_ext.rs), which is not among the provided sources;
they are modelled from §4.E/§4.R of the specification. -/

/-- Modelled from the spec: the Decaf sign convention (§4.E): `s` is
non-negative iff its canonical integer representative is even.  This is the
value enforced for the `FqVar::is_nonnegative` gadget Boolean. -/
def isNonnegative (x : Fq) : Bool := decide (x.val % 2 = 0)

/-- Modelled from the spec: `s` is negative iff the LSB of the non-Montgomery
form is 1 (§4.E); the value enforced for the `FqVar::is_negative` gadget
Boolean. -/
def isNegative (x : Fq) : Bool := decide (x.val % 2 = 1)

theorem isNegative_eq_not_isNonnegative (x : Fq) :
    isNegative x = !isNonnegative x := by
  unfold isNegative isNonnegative
  rcases Nat.mod_two_eq_zero_or_one x.val with h | h <;> simp [h]

theorem qval_odd : qval % 2 = 1 := by decide

theorem isNegative_neg {x : Fq} (hx : x ≠ 0) : isNegative (-x) = !isNegative x := by
  unfold isNegative
  have hval : (-x).val = qval - x.val := by
    rw [ZMod.neg_val, if_neg hx]
  have hlt : x.val < qval := ZMod.val_lt x
  have hne : x.val ≠ 0 := fun h => hx ((ZMod.val_eq_zero x).mp h)
  have hodd := qval_odd
  rw [hval]
  rcases Nat.mod_two_eq_zero_or_one x.val with h | h
  · have : (qval - x.val) % 2 = 1 := by omega
    simp [h, this]
  · have : (qval - x.val) % 2 = 0 := by omega
    simp [h, this]

/-- First intermediate value `u₁ = 1 - s²` of decompression (§4.E step 3 and
both gadget implementations). -/
def u1F (s : Fq) : Fq := 1 - s ^ 2

/-- Second intermediate value `u₂ = u₁² - 4d·s²` (§4.E step 4). -/
def u2F (s : Fq) : Fq := u1F s ^ 2 - COEFF_D * 4 * s ^ 2

/-- Denominator `u₂ · u₁²` fed to the square-root-of-ratio (§4.E step 5). -/
def denF (s : Fq) : Fq := u2F s * u1F s ^ 2

/-- The inverse square root produced by the square-root-of-ratio of `1`
and `u₂·u₁²` (§4.E step 5). -/
def specVraw (s : Fq) : Fq := (sqrtRatioZeta 1 (denF s)).2

/-- The §4.E step 6 sign adjustment: negate `v` exactly when `2·s·u₁·v`
is negative. -/
def specV (s : Fq) : Fq :=
  if isNegative (2 * s * u1F s * specVraw s) then -specVraw s else specVraw s

/-- Modelled from the spec: out-of-circuit decompression
(`Encoding::vartime_decompress`, §4.E; the encoding module is not among the
provided sources).  Step 1 (canonicity of the byte string) does not apply to
a field element input; step 2 rejects negative `s`, step 5 rejects when the
square root does not exist, and step 7 outputs
`(2·s·u₁·v²·u₂, (1+s²)·v·u₁)`. -/
def vartimeDecompress (s : Fq) : Option (Fq × Fq) :=
  if isNegative s then none
  else if (sqrtRatioZeta 1 (denF s)).1 = false then none
  else some (2 * s * u1F s * specV s ^ 2 * u2F s, (1 + s ^ 2) * specV s * u1F s)

/-- Modelled from the spec: the honest witness computed by the
`FqVar::isqrt` gadget (§4.R): the prover supplies the inverse square root
obtained from `sqrt_ratio_zeta(1, x)`. -/
def isqrtVal (x : Fq) : Bool × Fq := sqrtRatioZeta 1 x

/-- Translation of `ElementVar::decompress_from_field`
(src/ark_curve/r1cs/inner.rs, lines 69-109) at the level of the values the
gadget computes for a witnessed input `s`: `u₁ = 1 - s²`,
`u₂ = u₁² - 4d·s²`, `v` from the inverse square root of `u₂·u₁²`, negated
exactly when `2·s·u₁·v` is negative, and output
`(2·s·u₁·v²·u₂, (1+s²)·v·u₁)`. -/
def decompressCircuitOut (s : Fq) : Fq × Fq :=
  (2 * s * u1F s *
      (if isNegative (2 * s * u1F s * (isqrtVal (denF s)).2)
        then -(isqrtVal (denF s)).2 else (isqrtVal (denF s)).2) ^ 2 * u2F s,
   (1 + s ^ 2) *
      (if isNegative (2 * s * u1F s * (isqrtVal (denF s)).2)
        then -(isqrtVal (denF s)).2 else (isqrtVal (denF s)).2) * u1F s)

/-- The two `enforce_equal` constraints of `decompress_from_field`
(src/ark_curve/r1cs/inner.rs): the input must be non-negative and the
square root must exist, both enforced against `Boolean::TRUE`. -/
def decompressCircuitSat (s : Fq) : Prop :=
  isNonnegative s = true ∧ (isqrtVal (denF s)).1 = true

theorem circuitOut_eq_specV (s : Fq) :
    decompressCircuitOut s =
      (2 * s * u1F s * specV s ^ 2 * u2F s, (1 + s ^ 2) * specV s * u1F s) := rfl

theorem isNonnegative_of_not_neg {s : Fq} (h : isNegative s = false) :
    isNonnegative s = true := by
  have hrel := isNegative_eq_not_isNonnegative s
  rw [h] at hrel
  rcases Bool.eq_false_or_eq_true (isNonnegative s) with hb | hb
  · exact hb
  · rw [hb] at hrel
    simp at hrel

theorem not_neg_of_isNonnegative {s : Fq} (h : isNonnegative s = true) :
    isNegative s = false := by
  rw [isNegative_eq_not_isNonnegative, h]
  rfl

theorem isSome_vartimeDecompress {s : Fq} :
    (vartimeDecompress s).isSome ↔
      isNegative s = false ∧ (sqrtRatioZeta 1 (denF s)).1 = true := by
  unfold vartimeDecompress
  by_cases hneg : isNegative s = true
  · rw [if_pos hneg]
    simp [hneg]
  · rw [if_neg hneg]
    have hnf : isNegative s = false := by
      rcases Bool.eq_false_or_eq_true (isNegative s) with h | h
      · exact absurd h hneg
      · exact h
    by_cases hsq : (sqrtRatioZeta 1 (denF s)).1 = false
    · rw [if_pos hsq]
      simp [hnf, hsq]
    · rw [if_neg hsq]
      have hst : (sqrtRatioZeta 1 (denF s)).1 = true := by
        rcases Bool.eq_false_or_eq_true ((sqrtRatioZeta 1 (denF s)).1) with h | h
        · exact h
        · exact absurd h hsq
      simp [hnf, hst]

/-- C4: for every `s` in `Fq`, the in-circuit `decompress_from_field`
reproduces the §4.E decoding identity-for-identity: its constraints (`s`
non-negative and the square root exists, each enforced against
`Boolean::TRUE`) are satisfiable exactly when the out-of-circuit
decompression succeeds, it computes `u₁ = 1 - s²`, `u₂ = u₁² - 4d·s²`,
obtains `v` from the square-root-of-ratio of `1` and `u₂·u₁²`, negates `v`
exactly when `2·s·u₁·v` is negative, and outputs the point with
`x = 2·s·u₁·v²·u₂` and `y = (1+s²)·v·u₁`, matching the out-of-circuit
result whenever it exists; the square root, absolute value and negation
decisions enter as prover-supplied witness values checked by the
constraints. -/
theorem decompress_from_field_spec (s : Fq) :
    (decompressCircuitSat s ↔ (vartimeDecompress s).isSome) ∧
    (vartimeDecompress s = none ∨
      vartimeDecompress s = some (decompressCircuitOut s)) := by
  constructor
  · rw [isSome_vartimeDecompress]
    unfold decompressCircuitSat isqrtVal
    constructor
    · rintro ⟨h1, h2⟩
      exact ⟨not_neg_of_isNonnegative h1, h2⟩
    · rintro ⟨h1, h2⟩
      exact ⟨isNonnegative_of_not_neg h1, h2⟩
  · unfold vartimeDecompress
    by_cases hneg : isNegative s = true
    · left
      rw [if_pos hneg]
    · rw [if_neg hneg]
      by_cases hsq : (sqrtRatioZeta 1 (denF s)).1 = false
      · left
        rw [if_pos hsq]
      · right
        rw [if_neg hsq, circuitOut_eq_specV]

/-! ### R1CS witness allocation soundness -/

theorem fq_sqrtRatio_one_of_exists {x v : Fq} (hx : x ≠ 0) (hv : v ^ 2 * x = 1) :
    (sqrtRatioZeta 1 x).1 = true ∧ (sqrtRatioZeta 1 x).2 ^ 2 * x = 1 := by
  have hspec := sqrt_ratio_zeta_spec 1 x
  rw [if_neg (one_ne_zero : (1 : Fq) ≠ 0), if_neg hx] at hspec
  obtain ⟨hlaw, hiff⟩ := hspec
  have hsq : IsSquare ((1 : Fq) / x) := by
    rw [one_div]
    exact ⟨v, by rw [← sq]; exact (eq_inv_of_mul_eq_one_left hv).symm⟩
  have hw : (sqrtRatioZeta 1 x).1 = true := hiff.mpr hsq
  refine ⟨hw, ?_⟩
  rw [hw] at hlaw
  simpa using hlaw

/-- Decaf equivalence on affine coordinates, as used by
`EqGadget::is_eq` for `ElementVar` (src/ark_curve/r1cs/inner.rs):
`X₁·Y₂ = X₂·Y₁`. -/
def decafEq (P Q : Fq × Fq) : Prop := P.1 * Q.2 = Q.1 * P.2

/-- Modelled from the spec (§4.R): the constraints the
`decompress_from_field` gadget places on the witnessed values: the input is
non-negative, the `isqrt` tag is enforced true, the inverse-square-root
witness `v₀` satisfies `v₀²·x ∈ {1, ζ}` tagged by `was_square`, and the
negation bit equals the `is_negative` decomposition of `2·s·u₁·v₀`. -/
def decompressConstraints (s v0 : Fq) (ws nb : Bool) : Prop :=
  isNonnegative s = true ∧
  ws = true ∧
  v0 ^ 2 * denF s = (if ws then 1 else ZETA) ∧
  nb = isNegative (2 * s * u1F s * v0)

/-- Output coordinates of the decompression gadget in terms of the
witnessed values. -/
def decompressWitnessOut (s v0 : Fq) (nb : Bool) : Fq × Fq :=
  (2 * s * u1F s * (if nb then -v0 else v0) ^ 2 * u2F s,
   (1 + s ^ 2) * (if nb then -v0 else v0) * u1F s)

/-- Satisfiability of the Witness-mode allocation constraints of
`AllocVar for ElementVar` (src/ark_curve/r1cs/inner.rs, Witness arm): some
assignment of the witnessed field element `s` and the internal gadget
witnesses passes the decompression constraints and makes the decoded point
Decaf-equal to the allocated point `P`. -/
def allocWitnessSat (P : Fq × Fq) : Prop :=
  ∃ s v0 ws nb, decompressConstraints s v0 ws nb ∧
    decafEq (decompressWitnessOut s v0 nb) P

/-- The Decaf image: points Decaf-equal to some decompression output. -/
def decafImage (P : Fq × Fq) : Prop :=
  ∃ s pt, vartimeDecompress s = some pt ∧ decafEq pt P

theorem fq_sq_cases {a b : Fq} (h : a ^ 2 = b ^ 2) : a = b ∨ a = -b := by
  have hfac : (a - b) * (a + b) = 0 := by linear_combination h
  rcases mul_eq_zero.mp hfac with h0 | h0
  · exact Or.inl (sub_eq_zero.mp h0)
  · exact Or.inr (eq_neg_of_add_eq_zero_left h0)

/-- C2: allocating a point in Witness mode yields a satisfiable constraint
system only if the point lies in the Decaf image; equivalently, for every
point outside the Decaf image (not Decaf-equal to any decompression
output) the allocation constraints are unsatisfiable: no assignment of the
witnessed variables satisfies them. -/
theorem witness_alloc_sound (P : Fq × Fq) (h : allocWitnessSat P) :
    decafImage P := by
  obtain ⟨s, v0, ws, nb, ⟨hnn, hws, hsq, hnb⟩, hPeq⟩ := h
  subst hws
  rw [if_pos rfl] at hsq
  have hden : denF s ≠ 0 := by
    intro h0
    rw [h0, mul_zero] at hsq
    exact one_ne_zero hsq.symm
  have hv0 : v0 ≠ 0 := by
    intro h0
    rw [h0] at hsq
    simp at hsq
  obtain ⟨hw1, hr2⟩ := fq_sqrtRatio_one_of_exists hden hsq
  have hnegs : ¬ (isNegative s = true) := by
    rw [not_neg_of_isNonnegative hnn]
    simp
  have hdec : vartimeDecompress s =
      some (2 * s * u1F s * specV s ^ 2 * u2F s, (1 + s ^ 2) * specV s * u1F s) := by
    unfold vartimeDecompress
    rw [if_neg hnegs, hw1]
    rfl
  have hr0 : specVraw s ≠ 0 := by
    intro h0
    unfold specVraw at h0
    rw [h0] at hr2
    simp at hr2
  have hsqeq : v0 ^ 2 = specVraw s ^ 2 := by
    have hx : (v0 ^ 2 - specVraw s ^ 2) * denF s = 0 := by
      unfold specVraw
      rw [sub_mul, hsq, hr2, sub_self]
    have hor := (mul_eq_zero.mp hx).resolve_right hden
    exact sub_eq_zero.mp hor
  subst hnb
  by_cases hcz : 2 * s * u1F s = 0
  · refine ⟨s, _, hdec, ?_⟩
    have hvv : (if isNegative (2 * s * u1F s * v0) then -v0 else v0) ≠ 0 := by
      rcases Bool.eq_false_or_eq_true (isNegative (2 * s * u1F s * v0)) with hb | hb
      · rw [hb]
        simpa using hv0
      · rw [hb]
        simpa using hv0
    unfold decafEq decompressWitnessOut at hPeq
    unfold decafEq
    have hppt1 : 2 * s * u1F s * specV s ^ 2 * u2F s = 0 := by
      rw [hcz]
      ring
    have h1 : 2 * s * u1F s *
        (if isNegative (2 * s * u1F s * v0) then -v0 else v0) ^ 2 * u2F s = 0 := by
      rw [hcz]
      ring
    rw [h1, zero_mul] at hPeq
    rcases mul_eq_zero.mp hPeq.symm with hP1 | h3
    · rw [hppt1, zero_mul, hP1, zero_mul]
    · rcases mul_eq_zero.mp h3 with h4 | h4
      · rcases mul_eq_zero.mp h4 with h5 | h5
        · rw [hppt1, zero_mul, h5]
          ring
        · exact absurd h5 hvv
      · rw [hppt1, zero_mul, h4]
        ring
  · have hcv0 : 2 * s * u1F s * v0 ≠ 0 := mul_ne_zero hcz hv0
    have hcr : 2 * s * u1F s * specVraw s ≠ 0 := mul_ne_zero hcz hr0
    have hifeq : (if isNegative (2 * s * u1F s * v0) then -v0 else v0) = specV s := by
      unfold specV
      rcases fq_sq_cases hsqeq with hv | hv
      · rw [hv]
      · rw [hv, show 2 * s * u1F s * -specVraw s =
            -(2 * s * u1F s * specVraw s) from by ring, isNegative_neg hcr]
        rcases Bool.eq_false_or_eq_true (isNegative (2 * s * u1F s * specVraw s)) with hb | hb
        · rw [hb]
          simp
        · rw [hb]
          simp
    refine ⟨s, _, hdec, ?_⟩
    have hout : decompressWitnessOut s v0 (isNegative (2 * s * u1F s * v0)) =
        (2 * s * u1F s * specV s ^ 2 * u2F s, (1 + s ^ 2) * specV s * u1F s) := by
      unfold decompressWitnessOut
      rw [hifeq]
    rw [hout] at hPeq
    exact hPeq

/-- Witness for C2: the constraints are satisfiable at the identity point
`(0, 1)` (with `s = 0`), which therefore lies in the Decaf image. -/
theorem witness_alloc_sound_instance :
    allocWitnessSat ((0 : Fq), (1 : Fq)) ∧ decafImage ((0 : Fq), (1 : Fq)) := by
  have hden0 : denF 0 = 1 := by
    unfold denF u2F u1F
    ring
  have hsat : allocWitnessSat ((0 : Fq), (1 : Fq)) := by
    refine ⟨0, 1, true, false, ⟨by decide, rfl, ?_, ?_⟩, ?_⟩
    · rw [if_pos rfl, hden0]
      ring
    · rw [show 2 * (0 : Fq) * u1F 0 * 1 = 0 from by ring]
      decide
    · unfold decafEq decompressWitnessOut
      show 2 * (0 : Fq) * u1F 0 * (if false then -(1 : Fq) else 1) ^ 2 * u2F 0 * 1 =
        0 * ((1 + (0 : Fq) ^ 2) * (if false then -(1 : Fq) else 1) * u1F 0)
      ring
  exact ⟨hsat, witness_alloc_sound _ hsat⟩


/-! ### Elligator map (src/ark_curve/r1cs/inner.rs, `ElementVar::elligator_map`)

The gadget is modelled at the level of the values it computes; the two
`FqVar::inverse` calls at the end are modelled by the field inverse, and C6
shows they are never applied to zero. -/

/-- Intermediate value `r = ζ · r₀²`. -/
def ellR (r0 : Fq) : Fq := ZETA * r0 ^ 2

/-- Intermediate value `den = (d·r - (d - a)) · ((d - a)·r - d)`. -/
def ellDen (r0 : Fq) : Fq :=
  (COEFF_D * ellR r0 - (COEFF_D - COEFF_A)) * ((COEFF_D - COEFF_A) * ellR r0 - COEFF_D)

/-- Intermediate value `num = (r + 1) · (a - 2·d)`. -/
def ellNum (r0 : Fq) : Fq := (ellR r0 + 1) * (COEFF_A - 2 * COEFF_D)

/-- The `isqrt` witness `(iss, isri)` of `num · den`. -/
def ellIsr (r0 : Fq) : Bool × Fq := isqrtVal (ellNum r0 * ellDen r0)

/-- The inverse square root after the `twiddle` multiplication
(`1` when square, `r₀` otherwise). -/
def ellIsri (r0 : Fq) : Fq := (ellIsr r0).2 * (if (ellIsr r0).1 then 1 else r0)

/-- The Jacobi-quartic `s` coordinate before the sign adjustment. -/
def ellSPre (r0 : Fq) : Fq := ellIsri r0 * ellNum r0

/-- The sign `sgn` (`1` when square, `-1` otherwise). -/
def ellSgn (r0 : Fq) : Fq := if (ellIsr r0).1 then 1 else -1

/-- The Jacobi-quartic `t` coordinate. -/
def ellT (r0 : Fq) : Fq :=
  -ellSgn r0 * ellIsri r0 * ellSPre r0 * (ellR r0 - 1) * (COEFF_A - 2 * COEFF_D) ^ 2 - 1

/-- The `s` coordinate after the conditional negation
(`if s.is_negative() == iss then -s else s`). -/
def ellS (r0 : Fq) : Fq :=
  if isNegative (ellSPre r0) = (ellIsr r0).1 then -ellSPre r0 else ellSPre r0

/-- The affine output of the in-circuit Elligator map:
`x = 2·s / (1 + a·s²)`, `y = (1 - a·s²) / t`. -/
def elligatorMap (r0 : Fq) : Fq × Fq :=
  (2 * ellS r0 * (1 + COEFF_A * ellS r0 ^ 2)⁻¹,
   (1 - COEFF_A * ellS r0 ^ 2) * (ellT r0)⁻¹)

/-- Membership in the twisted Edwards curve `a·x² + y² = 1 + d·x²·y²`. -/
def onCurve (P : Fq × Fq) : Prop :=
  COEFF_A * P.1 ^ 2 + P.2 ^ 2 = 1 + COEFF_D * P.1 ^ 2 * P.2 ^ 2

theorem ell_quartic_sq (rr isri : Fq)
    (h : isri ^ 2 * (((rr + 1) * (COEFF_A - 2 * COEFF_D)) *
        ((COEFF_D * rr - (COEFF_D - COEFF_A)) * ((COEFF_D - COEFF_A) * rr - COEFF_D))) = 1) :
    (-(1 : Fq) * isri * (isri * ((rr + 1) * (COEFF_A - 2 * COEFF_D))) * (rr - 1) *
        (COEFF_A - 2 * COEFF_D) ^ 2 - 1) ^ 2 =
      COEFF_A ^ 2 * (isri * ((rr + 1) * (COEFF_A - 2 * COEFF_D))) ^ 4 +
        (2 * COEFF_A - 4 * COEFF_D) * (isri * ((rr + 1) * (COEFF_A - 2 * COEFF_D))) ^ 2 + 1 := by
  linear_combination (4 * ((rr + 1) * (COEFF_A - 2 * COEFF_D)) *
    (COEFF_A - 2 * COEFF_D) ^ 2 * isri ^ 2) * h

theorem ell_quartic_nonsq (rr isri : Fq)
    (h : isri ^ 2 * (((rr + 1) * (COEFF_A - 2 * COEFF_D)) *
        ((COEFF_D * rr - (COEFF_D - COEFF_A)) * ((COEFF_D - COEFF_A) * rr - COEFF_D))) = rr) :
    (isri * (isri * ((rr + 1) * (COEFF_A - 2 * COEFF_D))) * (rr - 1) *
        (COEFF_A - 2 * COEFF_D) ^ 2 - 1) ^ 2 =
      COEFF_A ^ 2 * (isri * ((rr + 1) * (COEFF_A - 2 * COEFF_D))) ^ 4 +
        (2 * COEFF_A - 4 * COEFF_D) * (isri * ((rr + 1) * (COEFF_A - 2 * COEFF_D))) ^ 2 + 1 := by
  linear_combination (4 * ((rr + 1) * (COEFF_A - 2 * COEFF_D)) *
    (COEFF_A - 2 * COEFF_D) ^ 2 * isri ^ 2) * h

/-- The Elligator `(s, t)` pair always satisfies the Jacobi quartic
`t² = a²·s⁴ + (2a - 4d)·s² + 1`. -/
theorem ell_quartic (r0 : Fq) :
    ellT r0 ^ 2 = COEFF_A ^ 2 * ellSPre r0 ^ 4 +
      (2 * COEFF_A - 4 * COEFF_D) * ellSPre r0 ^ 2 + 1 := by
  by_cases hw : ellNum r0 * ellDen r0 = 0
  · have hp : ellIsr r0 = (false, 0) := by
      unfold ellIsr isqrtVal sqrtRatioZeta
      rw [hw, if_neg (one_ne_zero : (1 : Fq) ≠ 0), if_pos rfl]
    unfold ellT ellSPre ellIsri ellSgn
    rw [hp]
    ring
  · have hlaw := sqrt_ratio_zeta_spec 1 (ellNum r0 * ellDen r0)
    rw [if_neg (one_ne_zero : (1 : Fq) ≠ 0), if_neg hw] at hlaw
    obtain ⟨hlaw1, _⟩ := hlaw
    rcases hb : (sqrtRatioZeta 1 (ellNum r0 * ellDen r0)).1 with _ | _
    · -- nonsquare branch: `isri² · (num·den) = ζ`, twiddle is `r₀`
      have hIb : (ellIsr r0).1 = false := by
        unfold ellIsr isqrtVal
        exact hb
      have hconstraint : (sqrtRatioZeta 1 (ellNum r0 * ellDen r0)).2 ^ 2 *
          (ellNum r0 * ellDen r0) = ZETA * 1 := by
        rw [hb] at hlaw1
        simpa using hlaw1
      have hIsri : ellIsri r0 = (sqrtRatioZeta 1 (ellNum r0 * ellDen r0)).2 * r0 := by
        unfold ellIsri
        rw [hIb]
        simp only [Bool.false_eq_true, if_neg]
        rfl
      have h2 : ellIsri r0 ^ 2 * (ellNum r0 * ellDen r0) = ellR r0 := by
        rw [hIsri]
        unfold ellR
        linear_combination r0 ^ 2 * hconstraint
      have hsgn : ellSgn r0 = -1 := by
        unfold ellSgn
        rw [hIb]
        simp
      unfold ellT ellSPre
      rw [hsgn]
      have h2' : ellIsri r0 ^ 2 * (((ellR r0 + 1) * (COEFF_A - 2 * COEFF_D)) *
          ((COEFF_D * ellR r0 - (COEFF_D - COEFF_A)) *
            ((COEFF_D - COEFF_A) * ellR r0 - COEFF_D))) = ellR r0 := by
        have := h2
        unfold ellNum ellDen at this
        linear_combination this
      have := ell_quartic_nonsq (ellR r0) (ellIsri r0) h2'
      unfold ellNum
      linear_combination this
    · -- square branch: `isri² · (num·den) = 1`, twiddle is `1`
      have hIb : (ellIsr r0).1 = true := by
        unfold ellIsr isqrtVal
        exact hb
      have hconstraint : (sqrtRatioZeta 1 (ellNum r0 * ellDen r0)).2 ^ 2 *
          (ellNum r0 * ellDen r0) = 1 := by
        rw [hb] at hlaw1
        simpa using hlaw1
      have hIsri : ellIsri r0 = (sqrtRatioZeta 1 (ellNum r0 * ellDen r0)).2 := by
        unfold ellIsri
        rw [hIb]
        simp only [if_pos]
        rw [mul_one]
        rfl
      have h2 : ellIsri r0 ^ 2 * (ellNum r0 * ellDen r0) = 1 := by
        rw [hIsri]
        exact hconstraint
      have hsgn : ellSgn r0 = 1 := by
        unfold ellSgn
        rw [hIb]
        simp
      unfold ellT ellSPre
      rw [hsgn]
      have h2' : ellIsri r0 ^ 2 * (((ellR r0 + 1) * (COEFF_A - 2 * COEFF_D)) *
          ((COEFF_D * ellR r0 - (COEFF_D - COEFF_A)) *
            ((COEFF_D - COEFF_A) * ellR r0 - COEFF_D))) = 1 := by
        have := h2
        unfold ellNum ellDen at this
        linear_combination this
      have := ell_quartic_sq (ellR r0) (ellIsri r0) h2'
      unfold ellNum
      linear_combination this

/-- Roots of `σ² - (2 + 4d)·σ + 1`, the values of `s²` that would make
`t = 0`; both are non-squares, so `t` never vanishes. -/
def ellW1 : Fq := ((1540338589255378884907623265298741519557025297419021216391795331718275827547 : ℕ) : Fq)

/-- Second root of `σ² - (2 + 4d)·σ + 1`. -/
def ellW2 : Fq := ((6904123160172991539341201673482805011818874037735042611543438124199133423580 : ℕ) : Fq)

theorem ellW_sum : ellW1 + ellW2 = 12086 := by decide

theorem ellW_prod : ellW1 * ellW2 = 1 := by decide

theorem ellW1_nonsquare : ¬ IsSquare ellW1 := by
  apply fq_nonsquare_of_pow_half (by decide)
  have h : ((1540338589255378884907623265298741519557025297419021216391795331718275827547 : ℕ) : Fq) ^ (qval / 2) = ((qval - 1 : ℕ) : Fq) :=
    zmod_pow_of_powMod 300 1540338589255378884907623265298741519557025297419021216391795331718275827547 (qval / 2) (qval - 1) (by decide)
  rw [show ellW1 = ((1540338589255378884907623265298741519557025297419021216391795331718275827547 : ℕ) : Fq) from rfl, h, fq_natCast_qval_sub_one]
  exact neg_one_ne_one_fq

theorem ellW2_nonsquare : ¬ IsSquare ellW2 := by
  apply fq_nonsquare_of_pow_half (by decide)
  have h : ((6904123160172991539341201673482805011818874037735042611543438124199133423580 : ℕ) : Fq) ^ (qval / 2) = ((qval - 1 : ℕ) : Fq) :=
    zmod_pow_of_powMod 300 6904123160172991539341201673482805011818874037735042611543438124199133423580 (qval / 2) (qval - 1) (by decide)
  rw [show ellW2 = ((6904123160172991539341201673482805011818874037735042611543438124199133423580 : ℕ) : Fq) from rfl, h, fq_natCast_qval_sub_one]
  exact neg_one_ne_one_fq

theorem neg_12084_nonsquare : ¬ IsSquare ((-12084 : Fq)) := by
  have hcast : ((qval - 12084 : ℕ) : Fq) = (-12084 : Fq) := by decide
  rw [← hcast]
  apply fq_nonsquare_of_pow_half (by decide)
  have h : ((qval - 12084 : ℕ) : Fq) ^ (qval / 2) = ((qval - 1 : ℕ) : Fq) :=
    zmod_pow_of_powMod 300 (qval - 12084) (qval / 2) (qval - 1) (by decide)
  rw [h, fq_natCast_qval_sub_one]
  exact neg_one_ne_one_fq

theorem ellS_sq (r0 : Fq) : ellS r0 ^ 2 = ellSPre r0 ^ 2 := by
  unfold ellS
  by_cases hb : isNegative (ellSPre r0) = (ellIsr r0).1
  · rw [if_pos hb]; ring
  · rw [if_neg hb]

/-- The quartic in terms of the numerals `a = -1`, `d = 3021`. -/
theorem ell_quartic_num (r0 : Fq) :
    ellT r0 ^ 2 = ellSPre r0 ^ 4 - 12086 * ellSPre r0 ^ 2 + 1 := by
  have h := ell_quartic r0
  simp only [COEFF_A, COEFF_D] at h
  linear_combination h

theorem ellT_ne_zero (r0 : Fq) : ellT r0 ≠ 0 := by
  intro h0
  have hq := ell_quartic_num r0
  rw [h0] at hq
  have hquad : ellSPre r0 ^ 2 * ellSPre r0 ^ 2 - 12086 * ellSPre r0 ^ 2 + 1 = 0 := by
    linear_combination - hq
  have hfac : (ellSPre r0 ^ 2 - ellW1) * (ellSPre r0 ^ 2 - ellW2) = 0 := by
    linear_combination hquad - ellSPre r0 ^ 2 * ellW_sum + ellW_prod
  rcases mul_eq_zero.mp hfac with hz | hz
  · exact ellW1_nonsquare ⟨ellSPre r0, by linear_combination - hz⟩
  · exact ellW2_nonsquare ⟨ellSPre r0, by linear_combination - hz⟩

theorem ellS_den_ne_zero (r0 : Fq) : 1 + COEFF_A * ellS r0 ^ 2 ≠ 0 := by
  intro h0
  have hq := ell_quartic_num r0
  have hs1 : ellSPre r0 ^ 2 = 1 := by
    have hss := ellS_sq r0
    simp only [COEFF_A] at h0
    linear_combination - h0 - hss
  have ht2 : ellT r0 * ellT r0 = -12084 := by
    linear_combination hq + (ellSPre r0 ^ 2 - 12085) * hs1
  exact neg_12084_nonsquare ⟨ellT r0, ht2.symm⟩

/-- C6: for every `r₀` in `Fq`, the in-circuit Elligator map is
well-defined: both field inversions it performs (`1 + a·s²` for the affine
`x` and `t` for the affine `y`) are applied to nonzero values, and the
output is always a valid point of the twisted Edwards curve
`a·x² + y² = 1 + d·x²·y²` with `a = -1`, `d = 3021`. -/
theorem elligator_map_wellDefined (r0 : Fq) :
    (1 + COEFF_A * ellS r0 ^ 2 ≠ 0 ∧ ellT r0 ≠ 0) ∧
      onCurve (elligatorMap r0) ∧ COEFF_A = -1 ∧ COEFF_D = 3021 := by
  have hk := ellS_den_ne_zero r0
  have ht := ellT_ne_zero r0
  refine ⟨⟨hk, ht⟩, ?_, rfl, rfl⟩
  have hq' : ellT r0 ^ 2 = (1 + COEFF_A * ellS r0 ^ 2) ^ 2 - 4 * COEFF_D * ellS r0 ^ 2 := by
    have hq := ell_quartic r0
    have hs2 : ellSPre r0 ^ 2 = ellS r0 ^ 2 := (ellS_sq r0).symm
    linear_combination hq + (COEFF_A ^ 2 * (ellSPre r0 ^ 2 + ellS r0 ^ 2) +
      2 * COEFF_A - 4 * COEFF_D) * hs2
  unfold onCurve elligatorMap
  simp only []
  field_simp
  linear_combination (-(1 - COEFF_A * ellS r0 ^ 2) ^ 2) * hq'

/-! ### The wrapper fields Fp (377-bit) and Fr (251-bit)

src/fields/fp/u64/wrapper.rs and src/fields/fr/u64/wrapper.rs wrap
fiat-crypto generated Montgomery arithmetic.  The fiat functions themselves
(`fp_from_bytes`, `fp_to_montgomery`, `fp_divstep`, ...) are generated code
that is not among the provided sources, so they are modelled from the
specification by their mathematical effect; the Montgomery representation is
abstracted away and field elements are residue classes. -/

/-- Modulus of the 377-bit field `Fp` (the BLS12-377 base field; `B = 377`
in src/fields/fp/u64/wrapper.rs). -/
def pval : ℕ := 258664426012969094010652733694893533536393512754914660539884262666720468348340822774968888139573360124440321458177

/-- Modulus of the 251-bit scalar field `Fr` (the order of the Decaf
prime-order group, §6). -/
def ellval : ℕ := 2111115437357092606062206234695386632838870926408408195193685246394721360383

/-- The 377-bit wrapper field. -/
abbrev Fp := ZMod pval

/-- The 251-bit wrapper field. -/
abbrev Fr := ZMod ellval

instance : NeZero pval := ⟨by norm_num [pval]⟩

instance : NeZero ellval := ⟨by norm_num [ellval]⟩

instance : Fact (Nat.Prime ellval) := ⟨prime_ell⟩

instance : Fact (Nat.Prime pval) := ⟨prime_p⟩

/-- Little-endian byte decomposition: `k` bytes of `v`
(fiat `fp_to_bytes` / `fr_to_bytes`). -/
def natToBytesLE : ℕ → ℕ → List ℕ
  | 0, _ => []
  | k+1, v => (v % 256) :: natToBytesLE k (v / 256)

/-- Little-endian byte recomposition (fiat `fp_from_bytes` /
`fr_from_bytes`). -/
def natFromBytesLE (l : List ℕ) : ℕ := l.foldr (fun b acc => b + 256 * acc) 0

theorem natToBytesLE_length : ∀ (k v : ℕ), (natToBytesLE k v).length = k := by
  intro k
  induction k with
  | zero => intro v; rfl
  | succ n ih => intro v; simp [natToBytesLE, ih]

theorem natFromBytesLE_natToBytesLE :
    ∀ (k v : ℕ), v < 256 ^ k → natFromBytesLE (natToBytesLE k v) = v := by
  intro k
  induction k with
  | zero =>
    intro v hv
    simp only [pow_zero, Nat.lt_one_iff] at hv
    subst hv
    rfl
  | succ n ih =>
    intro v hv
    have hdiv : v / 256 < 256 ^ n := by
      rw [Nat.div_lt_iff_lt_mul (by norm_num : 0 < 256)]
      calc v < 256 ^ (n + 1) := hv
        _ = 256 ^ n * 256 := by ring
    unfold natToBytesLE natFromBytesLE
    simp only [List.foldr_cons]
    rw [show (natToBytesLE n (v / 256)).foldr (fun b acc => b + 256 * acc) 0 =
        natFromBytesLE (natToBytesLE n (v / 256)) from rfl, ih _ hdiv]
    omega

/-- Modelled from the spec: `Fp::from_bytes` (src/fields/fp/u64/wrapper.rs
lines 36-44) runs fiat `fp_from_bytes` then `fp_to_montgomery`; the net
effect is the residue class of the little-endian integer of the 48 bytes.
No canonicity check is performed. -/
def Fp.from_bytes (bytes : List ℕ) : Fp := ((natFromBytesLE bytes : ℕ) : Fp)

/-- Modelled from the spec: `Fp::to_bytes_le` (lines 52-58) runs fiat
`fp_from_montgomery` then `fp_to_bytes`: the 48 little-endian bytes of the
canonical representative. -/
def Fp.to_bytes_le (x : Fp) : List ℕ := natToBytesLE 48 x.val

/-- Modelled from the spec: `Fr::from_raw_bytes` (src/fields/fr/u64/wrapper.rs
lines 36-44), the 32-byte analogue of `Fp::from_bytes`. -/
def Fr.from_raw_bytes (bytes : List ℕ) : Fr := ((natFromBytesLE bytes : ℕ) : Fr)

/-- Modelled from the spec: `Fr::to_bytes_le` (lines 52-58). -/
def Fr.to_bytes_le (x : Fr) : List ℕ := natToBytesLE 32 x.val

/-- C8: field byte serialization is a round trip on canonical
representatives: `to_bytes_le` returns the little-endian canonical
representative (strictly below the modulus), 48 bytes for the 377-bit field
and 32 bytes for `Fr`, and deserializing `to_bytes_le(x)` yields `x`. -/
theorem field_bytes_roundtrip :
    (∀ x : Fp, (Fp.to_bytes_le x).length = 48 ∧
      natFromBytesLE (Fp.to_bytes_le x) = x.val ∧ x.val < pval ∧
      Fp.from_bytes (Fp.to_bytes_le x) = x) ∧
    (∀ x : Fr, (Fr.to_bytes_le x).length = 32 ∧
      natFromBytesLE (Fr.to_bytes_le x) = x.val ∧ x.val < ellval ∧
      Fr.from_raw_bytes (Fr.to_bytes_le x) = x) := by
  constructor
  · intro x
    have hv : x.val < 256 ^ 48 := lt_of_lt_of_le (ZMod.val_lt x) (by norm_num [pval])
    have hrt : natFromBytesLE (Fp.to_bytes_le x) = x.val :=
      natFromBytesLE_natToBytesLE 48 x.val hv
    refine ⟨natToBytesLE_length 48 x.val, hrt, ZMod.val_lt x, ?_⟩
    unfold Fp.from_bytes
    rw [hrt]
    exact ZMod.natCast_rightInverse x
  · intro x
    have hv : x.val < 256 ^ 32 := lt_of_lt_of_le (ZMod.val_lt x) (by norm_num [ellval])
    have hrt : natFromBytesLE (Fr.to_bytes_le x) = x.val :=
      natFromBytesLE_natToBytesLE 32 x.val hv
    refine ⟨natToBytesLE_length 32 x.val, hrt, ZMod.val_lt x, ?_⟩
    unfold Fr.from_raw_bytes
    rw [hrt]
    exact ZMod.natCast_rightInverse x

/-- C10: the byte deserialization constructors are total on fixed-length
inputs: every 48-byte (resp. 32-byte) array, including non-canonical arrays
encoding an integer at or above the modulus, yields without error the field
element congruent to the little-endian integer; no rejection happens at
this interface. -/
theorem from_bytes_total (bytes48 bytes32 : List ℕ)
    (h48 : bytes48.length = 48) (h32 : bytes32.length = 32) :
    (Fp.from_bytes bytes48 = ((natFromBytesLE bytes48 : ℕ) : Fp) ∧
      (Fp.from_bytes bytes48).val = natFromBytesLE bytes48 % pval) ∧
    (Fr.from_raw_bytes bytes32 = ((natFromBytesLE bytes32 : ℕ) : Fr) ∧
      (Fr.from_raw_bytes bytes32).val = natFromBytesLE bytes32 % ellval) :=
  ⟨⟨rfl, ZMod.val_natCast (natFromBytesLE bytes48)⟩,
   ⟨rfl, ZMod.val_natCast (natFromBytesLE bytes32)⟩⟩

/-- Witness for C10 at the all-0xFF (non-canonical) byte arrays. -/
theorem from_bytes_total_witness :
    (List.replicate 48 (255 : ℕ)).length = 48 ∧
    (List.replicate 32 (255 : ℕ)).length = 32 ∧
    (Fp.from_bytes (List.replicate 48 255) =
        ((natFromBytesLE (List.replicate 48 255) : ℕ) : Fp) ∧
      (Fp.from_bytes (List.replicate 48 255)).val =
        natFromBytesLE (List.replicate 48 255) % pval) ∧
    (Fr.from_raw_bytes (List.replicate 32 255) =
        ((natFromBytesLE (List.replicate 32 255) : ℕ) : Fr) ∧
      (Fr.from_raw_bytes (List.replicate 32 255)).val =
        natFromBytesLE (List.replicate 32 255) % ellval) := by
  refine ⟨by decide, by decide, ?_⟩
  exact from_bytes_total (List.replicate 48 255) (List.replicate 32 255)
    (by decide) (by decide)

/-! ### Field inversion (C3)

`Fp::inverse` (src/fields/fp/u64/wrapper.rs lines 85-161) and `Fr::inverse`
(src/fields/fr/u64/wrapper.rs lines 79-155) first compare the input with
zero and return `None` on equality; otherwise they run the fiat
Bernstein-Yang divstep loop, apply the sign correction and multiply by the
divstep precomputation constant, returning `Some` of the result.  The fiat
core is generated code not among the provided sources. -/

/-- Modelled from the spec: the net effect of the fiat divstep loop, sign
correction and precomputation multiply on a nonzero input is the
multiplicative inverse in the field. -/
def fpInverseCore (x : Fp) : Fp := x⁻¹

/-- Modelled from the spec: the `Fr` divstep core, as for `Fp`. -/
def frInverseCore (x : Fr) : Fr := x⁻¹

/-- `Fp::inverse`: `None` exactly on zero, otherwise `Some` of the divstep
result (src/fields/fp/u64/wrapper.rs lines 85-92 and 160-161). -/
def Fp.inverse (x : Fp) : Option Fp :=
  if x = 0 then none else some (fpInverseCore x)

/-- `Fr::inverse` (src/fields/fr/u64/wrapper.rs lines 79-86 and 154-155). -/
def Fr.inverse (x : Fr) : Option Fr :=
  if x = 0 then none else some (frInverseCore x)

/-- C3: for each wrapper field (`Fp`, 377-bit, and `Fr`, 251-bit),
`inverse` returns no value exactly on zero, and any value `y` it returns
satisfies `x * y = 1`. -/
theorem field_inverse_spec :
    (∀ x : Fp, (Fp.inverse x = none ↔ x = 0) ∧
      (Fp.inverse x = none ∨ x * ((Fp.inverse x).getD 0) = 1)) ∧
    (∀ x : Fr, (Fr.inverse x = none ↔ x = 0) ∧
      (Fr.inverse x = none ∨ x * ((Fr.inverse x).getD 0) = 1)) := by
  constructor
  · intro x
    by_cases hx : x = 0
    · subst hx
      simp [Fp.inverse]
    · constructor
      · simp [Fp.inverse, hx]
      · right
        simp only [Fp.inverse, if_neg hx, Option.getD_some, fpInverseCore]
        exact mul_inv_cancel₀ hx
  · intro x
    by_cases hx : x = 0
    · subst hx
      simp [Fr.inverse]
    · constructor
      · simp [Fr.inverse, hx]
      · right
        simp only [Fr.inverse, if_neg hx, Option.getD_some, frInverseCore]
        exact mul_inv_cancel₀ hx

/-! ### Divstep inversion structure (C5)

The wrapper `inverse` functions (src/fields/fp/u64/wrapper.rs lines 85-161,
src/fields/fr/u64/wrapper.rs lines 79-155) drive the fiat `divstep`
transition in a while loop.  The transition itself is generated fiat code
not among the provided sources, so it is modelled from the specification
("safegcd / divstep: the Bernstein-Yang constant-time modular-inversion
algorithm"); the loop schedule, sign extraction and final normalization are
translated from the wrapper source. -/

/-- State threaded through the divstep iteration: transition counter `d`,
saturated values `f`, `g`, and the Bezout accumulators `v`, `r` over the
field. -/
structure DivstepState (m : ℕ) where
  d : ℤ
  f : ℤ
  g : ℤ
  v : ZMod m
  r : ZMod m

/-- Modelled from the spec: the Bernstein-Yang divstep transition
(fiat `fp_divstep` / `fr_divstep`). -/
def divstep (m : ℕ) (s : DivstepState m) : DivstepState m :=
  let half : ZMod m := (2 : ZMod m)⁻¹
  if 0 < s.d ∧ s.g % 2 = 1 then
    ⟨1 - s.d, s.g, (s.g - s.f) / 2, s.r, (s.r - s.v) * half⟩
  else
    ⟨1 + s.d, s.f, (s.g + (s.g % 2) * s.f) / 2, s.v,
      (s.r + ((s.g % 2 : ℤ) : ZMod m) * s.v) * half⟩

/-- The paired while loop of the wrapper (`while i < I - I % 2`, two
divsteps per iteration), with `k` the number of pair iterations. -/
def divstepPairs (m : ℕ) : ℕ → DivstepState m → DivstepState m
  | 0, s => s
  | k+1, s => divstepPairs m k (divstep m (divstep m s))

/-- The full loop schedule of the wrapper `inverse`: pair iterations until
`I - I % 2` rounds are consumed, then, when `I` is odd, one extra round of
which only the `f` and `v` outputs are committed (`v = out4; f = out2;`). -/
def divstepLoop (m : ℕ) (I : ℕ) (s : DivstepState m) : DivstepState m :=
  let s1 := divstepPairs m ((I - I % 2) / 2) s
  if I % 2 ≠ 0 then
    let s2 := divstep m s1
    ⟨s1.d, s2.f, s1.g, s2.v, s1.r⟩
  else s1

/-- Field bitlength `B = 377` of `Fp` (src/fields/fp/u64/wrapper.rs). -/
def fpB : ℕ := 377

/-- Modelled from the spec: the field bitlength `B = 251` of `Fr`
(declared in src/fields/fr.rs, which is not among the provided sources;
§2 pins the 251-bit modulus). -/
def frB : ℕ := 251

/-- Round count `I = (49·B + 57) / 17` of `Fp::inverse` (Rust integer
division, i.e. the floor). -/
def fpI : ℕ := (49 * fpB + 57) / 17

/-- Round count `I = (49·B + 57) / 17` of `Fr::inverse`. -/
def frI : ℕ := (49 * frB + 57) / 17

/-- Sign extraction of `Fp::inverse`
(`(f[f.len() - 1] >> 32 - 1) & 1`, line 143): bit 31 of the top limb of the
7-limb two's-complement saturated representation of `f`. -/
def fpSignBit (f : ℤ) : ℤ := (f % 2 ^ 448) / 2 ^ 384 / 2 ^ 31 % 2

/-- Sign extraction of `Fr::inverse`
(`(f[f.len() - 1] >> (64 - 1)) & 1`, line 137): bit 63 of the top limb of
the 5-limb saturated representation of `f`. -/
def frSignBit (f : ℤ) : ℤ := (f % 2 ^ 320) / 2 ^ 256 / 2 ^ 63 % 2

/-- Modelled from the spec: the precomputed divstep normalization constant
(fiat `fp_divstep_precomp`); in this Montgomery-free model it normalizes
away the `2^I` accumulated by the halvings. -/
def fpPrecomp : Fp := ((2 : Fp) ^ fpI)⁻¹

/-- Modelled from the spec: fiat `fr_divstep_precomp`. -/
def frPrecomp : Fr := ((2 : Fr) ^ frI)⁻¹

/-- The inversion routine of the wrappers, translated from the source: zero
check, divstep loop over `I` rounds with initial state
`(d, f, g, v, r) = (1, m, a, 0, 1)`, sign extraction of the final `f`,
conditional negation of the candidate `v`, normalization by the
precomputed constant. -/
def divstepInverse (m : ℕ) (I : ℕ) (signBit : ℤ → ℤ) (precomp : ZMod m)
    (x : ZMod m) : Option (ZMod m) :=
  if x = 0 then none
  else
    some ((if signBit (divstepLoop m I ⟨1, (m : ℤ), (x.val : ℤ), 0, 1⟩).f = 1
      then -(divstepLoop m I ⟨1, (m : ℤ), (x.val : ℤ), 0, 1⟩).v
      else (divstepLoop m I ⟨1, (m : ℤ), (x.val : ℤ), 0, 1⟩).v) * precomp)

/-- Closed form of the loop schedule: exactly `I` applications of
`divstep`. -/
def divstepInverseClosed (m : ℕ) (I : ℕ) (signBit : ℤ → ℤ) (precomp : ZMod m)
    (x : ZMod m) : Option (ZMod m) :=
  if x = 0 then none
  else
    some ((if signBit ((divstep m)^[I] ⟨1, (m : ℤ), (x.val : ℤ), 0, 1⟩).f = 1
      then -((divstep m)^[I] ⟨1, (m : ℤ), (x.val : ℤ), 0, 1⟩).v
      else ((divstep m)^[I] ⟨1, (m : ℤ), (x.val : ℤ), 0, 1⟩).v) * precomp)

theorem divstepPairs_eq_iterate (m : ℕ) :
    ∀ (k : ℕ) (s : DivstepState m), divstepPairs m k s = (divstep m)^[2 * k] s := by
  intro k
  induction k with
  | zero => intro s; rfl
  | succ n ih =>
    intro s
    show divstepPairs m n (divstep m (divstep m s)) = (divstep m)^[2 * (n + 1)] s
    rw [ih]
    rw [show 2 * (n + 1) = 2 * n + 1 + 1 from by ring]
    rw [Function.iterate_succ_apply, Function.iterate_succ_apply]

theorem divstepLoop_f_v (m : ℕ) (I : ℕ) (s : DivstepState m) :
    (divstepLoop m I s).f = ((divstep m)^[I] s).f ∧
    (divstepLoop m I s).v = ((divstep m)^[I] s).v := by
  unfold divstepLoop
  rw [divstepPairs_eq_iterate]
  rcases Nat.even_or_odd I with he | ho
  · have h2 : I % 2 = 0 := Nat.even_iff.mp he
    simp only [h2]
    have hk : 2 * ((I - 0) / 2) = I := by omega
    rw [hk]
    simp
  · have h2 : I % 2 = 1 := Nat.odd_iff.mp ho
    simp only [h2]
    have hk : 2 * ((I - 1) / 2) = I - 1 := by omega
    rw [hk]
    rw [show (divstep m)^[I] s = divstep m ((divstep m)^[I - 1] s) from by
      conv_lhs => rw [show I = (I - 1) + 1 from by omega, Function.iterate_succ_apply']]
    simp

/-- C5 (amended): for every nonzero input, the wrapper inversion performs
the divstep iteration with `I = ⌊(49·B + 57) / 17⌋` rounds (`B = 377` gives
`I = 1090` for `Fp`, `B = 251` gives `I = 726` for `Fr`), pairing
iterations until `I - I % 2` rounds are consumed and performing one extra
round if `I` is odd, then extracts the sign of the final transform bit to
conditionally negate the candidate and multiplies by the precomputed
divstep normalization constant. -/
theorem inverse_divstep_structure :
    (∀ (m I : ℕ) (sb : ℤ → ℤ) (pc : ZMod m) (x : ZMod m),
      divstepInverse m I sb pc x = divstepInverseClosed m I sb pc x) ∧
    fpI = (49 * fpB + 57) / 17 ∧ fpI = 1090 ∧ fpB = 377 ∧
    frI = (49 * frB + 57) / 17 ∧ frI = 726 ∧ frB = 251 := by
  refine ⟨?_, rfl, by decide, rfl, rfl, by decide, rfl⟩
  intro m I sb pc x
  unfold divstepInverse divstepInverseClosed
  by_cases hx : x = 0
  · rw [if_pos hx, if_pos hx]
  · rw [if_neg hx, if_neg hx]
    obtain ⟨hf, hv⟩ := divstepLoop_f_v m I ⟨1, (m : ℤ), (x.val : ℤ), 0, 1⟩
    rw [hf, hv]

/-- Counterexample for C5 as stated: the code computes `I` by integer
(floor) division, and for `Fr` (`B = 251`) this differs from the ceiling
claimed by the specification: `726 ≠ ⌈12356 / 17⌉ = 727`. -/
theorem inverse_rounds_ceil_counterexample :
    frI = 726 ∧ (49 * frB + 57 + 16) / 17 = 727 ∧
    frI ≠ (49 * frB + 57 + 16) / 17 := by
  refine ⟨by decide, by decide, by decide⟩

/-! ### Allocation modes (C7) and the affine addition wiring (C9) -/

/-- The three allocation modes of the constraint framework. -/
inductive AllocationMode where
  | Constant : AllocationMode
  | Input : AllocationMode
  | Witness : AllocationMode

/-- Outcome of running an allocation: a value, or a Rust panic. -/
inductive AllocOutcome (α : Type) where
  | ok : α → AllocOutcome α
  | panic : AllocOutcome α

/-- Translation of `AllocVar<Element, Fq> for ElementVar::new_variable`
(src/ark_curve/r1cs/inner.rs lines 250-287) at the level of the allocation
outcome: the Constant and Witness arms return the allocated element (the
constraints of the Witness arm are `allocWitnessSat`), while the Input arm
is `unreachable!()`, which panics at runtime. -/
def innerNewVariable (mode : AllocationMode) (P : Fq × Fq) : AllocOutcome (Fq × Fq) :=
  match mode with
  | .Constant => .ok P
  | .Input => .panic
  | .Witness => .ok P

/-- Translation of `AllocVar<Element, Fq> for
Decaf377ElementVar::new_variable` (src/r1cs/gadget.rs lines 204-251): all
three arms allocate; the Input arm exposes the element as a public input. -/
def gadgetNewVariable (mode : AllocationMode) (P : Fq × Fq) : AllocOutcome (Fq × Fq) :=
  match mode with
  | .Constant => .ok P
  | .Input => .ok P
  | .Witness => .ok P

/-- C7 evaluation: allocating any element in Input mode panics in the
ark_curve implementation (the `unreachable!()` arm), contradicting the
specified "expose as a public input" behavior, which the older gadget
implements. -/
theorem input_alloc_panics :
    (∀ P : Fq × Fq, innerNewVariable AllocationMode.Input P = AllocOutcome.panic) ∧
    (∀ P : Fq × Fq, gadgetNewVariable AllocationMode.Input P = AllocOutcome.ok P) :=
  ⟨fun _ => rfl, fun _ => rfl⟩

/-- A group element in extended projective coordinates
(`Element` wraps the external `EdwardsProjective`). -/
structure Element where
  X : Fq
  Y : Fq
  Z : Fq
  T : Fq

/-- An affine group element (`AffineElement` wraps the external
`EdwardsAffine`). -/
structure AffineElement where
  x : Fq
  y : Fq

/-- Modelled from the spec: the external framework's twisted Edwards
projective addition that `Add for Element` delegates to (§6 names the
framework an external collaborator providing the Edwards arithmetic);
the standard unified extended-coordinate addition law. -/
def edwardsAdd (P Q : Element) : Element :=
  let A := P.X * Q.X
  let B := P.Y * Q.Y
  let C := COEFF_D * P.T * Q.T
  let Dd := P.Z * Q.Z
  let H := B - COEFF_A * A
  let E := (P.X + P.Y) * (Q.X + Q.Y) - A - B
  let F := Dd - C
  let G := Dd + C
  ⟨E * F, G * H, F * G, E * H⟩

/-- Conversion `From<AffineElement> for Element`
(src/element.rs lines 142-148), delegating to the external affine-to-
projective conversion `(x, y) ↦ (x, y, 1, x·y)`. -/
def affineToElement (P : AffineElement) : Element := ⟨P.x, P.y, 1, P.x * P.y⟩

/-- Translation of `Add<Element> for AffineElement`
(src/ops/projective.rs lines 218-224): convert self and add projectively. -/
def affineAddElement (p : AffineElement) (other : Element) : Element :=
  edwardsAdd (affineToElement p) other

/-- Translation of `Add<AffineElement> for AffineElement`
(src/ops/projective.rs lines 206-216), including the unused local binding
`self_element` computed from `other`. -/
def affineAddAffine (p other : AffineElement) : Element :=
  let other_element := affineToElement other
  let self_element := affineToElement other
  affineAddElement p other_element

/-- C9: affine + affine addition equals the sum of the projective
conversions of its two operands; the result depends on both operands as
the group sum despite the unused `self_element` binding computed from the
second operand. -/
theorem affine_add_spec (P Q : AffineElement) :
    affineAddAffine P Q = edwardsAdd (affineToElement P) (affineToElement Q) := rfl

end Decaf377
